import Mathlib

/-!
Verification of the quart collision core (geom + phys packages).

The Go code computes over IEEE-754 float64; here the arithmetic is idealized
over the real numbers.  Division by zero yields 0 in Lean (the float code
would produce NaN; NaN-producing degenerate inputs such as zero-length
segments are rejected cleanly in this model).  The positive-infinity
sentinel used for the running nearest-hit distance is modelled with Option,
and the panic in moveCircle1 is modelled by Option.none.  The unbounded
resolution loop of MoveCircle is modelled with an explicit fuel parameter;
running out of fuel also yields none.
-/

noncomputable section
open Classical

namespace Quart

/-- Threshold is the geom package's fixed epsilon constant:
the square root of the IEEE 64-bit floating point epsilon. -/
def Threshold : ℝ := 1.4901161193847656e-08

/-- Float64Equals: two scalars are equal when they differ by less than Threshold. -/
def Float64Equals (a b : ℝ) : Prop := |a - b| < Threshold

/-- Vec models geom.Vector, a direction and magnitude in 2-space. -/
structure Vec where
  x : ℝ
  y : ℝ

/-- Pt models geom.Point, a location in 2-space. -/
structure Pt where
  x : ℝ
  y : ℝ

namespace Vec

/-- Vector addition (geom.Vector.Plus / Add). -/
def Plus (a b : Vec) : Vec := ⟨a.x + b.x, a.y + b.y⟩

/-- Vector difference (geom.Vector.Minus). -/
def Minus (a b : Vec) : Vec := ⟨a.x - b.x, a.y - b.y⟩

/-- Component-wise product of two vectors (geom.Vector.Times). -/
def Times (a b : Vec) : Vec := ⟨a.x * b.x, a.y * b.y⟩

/-- Product of a vector and a scalar (geom.Vector.ScaledBy). -/
def ScaledBy (v : Vec) (k : ℝ) : Vec := ⟨v.x * k, v.y * k⟩

/-- Dot product (geom.Vector.Dot). -/
def Dot (a b : Vec) : ℝ := a.x * b.x + a.y * b.y

/-- Squared magnitude (geom.Vector.SquaredMagnitude). -/
def SquaredMagnitude (v : Vec) : ℝ := v.x * v.x + v.y * v.y

/-- Magnitude (geom.Vector.Magnitude). -/
def Magnitude (v : Vec) : ℝ := Real.sqrt v.SquaredMagnitude

/-- Normalized unit form: each component divided by the magnitude
(geom.Vector.Unit). -/
def Unit (v : Vec) : Vec := ⟨v.x / v.Magnitude, v.y / v.Magnitude⟩

/-- Vector pointing in the opposite direction (geom.Vector.Inverse). -/
def Inverse (v : Vec) : Vec := ⟨-v.x, -v.y⟩

/-- Modelled from the spec: the geom package's vector near-equality with the
zero vector (Vector.NearZero is used by phys.MoveCircle but its definition is
not among the given sources).  Following the spec's error-handling rule that
all float comparisons use the fixed epsilon Threshold, and the geom package's
component-wise Vector.Equals, a vector is near zero when every component is
within Threshold of 0. -/
def NearZero (v : Vec) : Prop := Float64Equals v.x 0 ∧ Float64Equals v.y 0

/-- Zero vector, the value of the Go composite literal Vector\x7b\x7d. -/
def zero : Vec := ⟨0, 0⟩

end Vec

namespace Pt

/-- Sum of a point and a vector (geom.Point.Plus / Add). -/
def Plus (p : Pt) (v : Vec) : Pt := ⟨p.x + v.x, p.y + v.y⟩

/-- Difference between two points, a vector (geom.Point.Minus). -/
def Minus (a b : Pt) : Vec := ⟨a.x - b.x, a.y - b.y⟩

/-- Component-wise product of a point and a vector (geom.Point.Times). -/
def Times (p : Pt) (v : Vec) : Pt := ⟨p.x * v.x, p.y * v.y⟩

/-- Squared distance between two points (geom.Point.SquaredDistance). -/
def SquaredDistance (a b : Pt) : ℝ :=
  (a.x - b.x) * (a.x - b.x) + (a.y - b.y) * (a.y - b.y)

/-- Distance between two points (geom.Point.Distance). -/
def Distance (a b : Pt) : ℝ := Real.sqrt (a.SquaredDistance b)

/-- View of a point as a vector, the Go conversion Vector(p). -/
def toVec (p : Pt) : Vec := ⟨p.x, p.y⟩

/-- Origin point, the value of the Go composite literal Point\x7b\x7d. -/
def zero : Pt := ⟨0, 0⟩

end Pt

/-- Plane models geom.Plane: a point and its normal vector. -/
structure Plane where
  origin : Pt
  normal : Vec

/-- Ray models geom.Ray: an origin point and a direction vector. -/
structure Ray where
  origin : Pt
  direction : Vec

/-- Sphere models geom.Sphere: all points at a fixed distance from a center. -/
structure Sphere where
  center : Pt
  radius : ℝ

/-- Circle is a 2-dimensional sphere (geom type alias Circle = Sphere). -/
abbrev Circle := Sphere

/-- Segment models geom.Segment, an ordered pair of two endpoints. -/
structure Segment where
  p0 : Pt
  p1 : Pt

/-- Ellipse models geom.Ellipse / Ellipsoid: a center and one radius per axis. -/
structure Ellipse where
  center : Pt
  radii : Vec

/-- PlaneIntersection (geom.Ray.PlaneIntersection): the distance along the ray
at which it intersects a plane; none models the hit=false return. -/
def Ray.PlaneIntersection (r : Ray) (p : Plane) : Option ℝ :=
  let d := -(p.normal.Dot p.origin.toVec)
  let numer := p.normal.Dot r.origin.toVec + d
  let denom := r.direction.Dot p.normal
  if Float64Equals denom 0 then none else some (-numer / denom)

/-- SphereIntersection (geom.Ray.SphereIntersection): the distance along the
ray at which it intersects a sphere; none models the hit=false return. -/
def Ray.SphereIntersection (r : Ray) (s : Sphere) : Option ℝ :=
  let q := s.center.Minus r.origin
  let c := q.Magnitude
  let v := q.Dot r.direction
  let d := s.radius * s.radius - (c * c - v * v)
  if d < 0 then none else some (v - Real.sqrt d)

/-- Normal of a segment (geom.Segment.Normal): the unit direction from p0 to
p1 with components (x, y) replaced by (-y, x). -/
def Segment.Normal (s : Segment) : Vec :=
  let n := (s.p1.Minus s.p0).Unit
  ⟨-n.y, n.x⟩

/-- Line containing a segment (geom.Segment.Line); a Line is a Plane in 2-d. -/
def Segment.Line (s : Segment) : Plane := ⟨s.p0, s.Normal⟩

/-- NearestPoint (geom.Segment.NearestPoint): the point on the segment
nearest to p. -/
def Segment.NearestPoint (s : Segment) (p : Pt) : Pt :=
  let v := s.p1.Minus s.p0
  let d := v.Magnitude
  let vu := v.Unit
  let t := vu.Dot (p.Minus s.p0)
  if t < 0 then s.p0
  else if t > d then s.p1
  else s.p0.Plus (vu.ScaledBy t)

/-- Membership of a point in the set of points of a segment (the portion of a
line between and including two points). -/
def Segment.Contains (s : Segment) (q : Pt) : Prop :=
  ∃ t : ℝ, 0 ≤ t ∧ t ≤ 1 ∧ q = s.p0.Plus ((s.p1.Minus s.p0).ScaledBy t)

/-- bottomFactor (phys): the factor of the height of a body considered to be
the bottom, used for the on-the-ground test. -/
def bottomFactor : ℝ := 0.05

/-- circlePlaneHit (phys): the point at which a circle traveling with a given
velocity will intersect a plane; none models the hit=false return. -/
def circlePlaneHit (c : Circle) (v : Vec) (p : Plane) : Option Pt :=
  match Ray.PlaneIntersection ⟨c.center, p.normal.Inverse⟩ p with
  | none => none
  | some d =>
    if d < 0 then none
    else if d ≤ c.radius then some (c.center.Plus (p.normal.Inverse.ScaledBy d))
    else
      let o := c.center.Plus (p.normal.Inverse.ScaledBy c.radius)
      match Ray.PlaneIntersection ⟨o, v.Unit⟩ p with
      | none => none
      | some d2 =>
        if d2 < 0 then none else some (o.Plus (v.Unit.ScaledBy d2))

/-- circleSegmentHit (phys): the collision of a circle and a segment; some
(d, p) is the distance along the velocity vector and the collision point,
none models the hit=false return. -/
def circleSegmentHit (c : Circle) (v : Vec) (s : Segment) : Option (ℝ × Pt) :=
  match circlePlaneHit c v s.Line with
  | none => none
  | some planeHit =>
    let polyHit := s.NearestPoint planeHit
    match Ray.SphereIntersection ⟨polyHit, v.Inverse.Unit⟩ c with
    | none => none
    | some d =>
      if d < 0 ∨ d > v.Magnitude then none else some (d, polyHit)

/-- Move models the phys.move struct returned by moveCircle1. -/
structure Move where
  distance : ℝ
  newVelocity : Vec
  hit : Bool
  hitPoint : Pt

/-- One step of the nearest-hit selection in moveCircle1's scan over all
segments: keep the accumulator unless this segment hits strictly nearer.
The Go code starts the running distance at positive infinity and replaces it
whenever a hit has strictly smaller distance; none models the initial
infinite sentinel, against which any real hit distance compares smaller. -/
def bestHitStep (c : Circle) (v : Vec) (acc : Option (ℝ × Pt)) (s : Segment) :
    Option (ℝ × Pt) :=
  match circleSegmentHit c v s with
  | none => acc
  | some (d, pt) =>
    match acc with
    | none => some (d, pt)
    | some (d0, pt0) => if d < d0 then some (d, pt) else some (d0, pt0)

/-- Selection of the nearest hit among all segments (the scan loop at the top
of phys.moveCircle1). -/
def bestHit (c : Circle) (v : Vec) (segs : List Segment) : Option (ℝ × Pt) :=
  segs.foldl (bestHitStep c v) none

/-- moveCircle1 (phys): moves a circle along a vector until the first
collision with a segment.  none models the panic when the slide projection
ray fails to intersect the sliding plane. -/
def moveCircle1 (c : Circle) (v : Vec) (segs : List Segment) : Option Move :=
  match bestHit c v segs with
  | none => some ⟨v.Magnitude, Vec.zero, false, Pt.zero⟩
  | some (dist, hitPt) =>
    let vUnit := v.Unit
    let center := c.center.Plus (vUnit.ScaledBy dist)
    let slide : Plane := ⟨hitPt, (hitPt.Minus center).Unit⟩
    let dest := hitPt.Plus (vUnit.ScaledBy (v.Magnitude - dist))
    match Ray.PlaneIntersection ⟨dest, slide.normal⟩ slide with
    | none => none
    | some d =>
      some ⟨dist - Threshold,
            (dest.Plus (slide.normal.Unit.ScaledBy d)).Minus hitPt,
            true, hitPt⟩

/-- MoveCircleFuel (phys.MoveCircle): moves a circle with a given velocity,
handling collision with segments; the second component is true if the circle
collided with a segment beneath it.  The Go loop runs until the velocity is
near zero; fuel bounds the number of iterations and none models either fuel
exhaustion or the moveCircle1 panic. -/
def MoveCircleFuel : ℕ → Circle → Vec → List Segment → Option (Circle × Bool)
  | 0, c, v, _ => if v.NearZero then some (c, false) else none
  | n + 1, c, v, segs =>
    if v.NearZero then some (c, false)
    else
      match moveCircle1 c v segs with
      | none => none
      | some mv =>
        let c' : Circle := ⟨c.center.Plus (v.Unit.ScaledBy mv.distance), c.radius⟩
        let low := c'.center.y - c'.radius * (1 - bottomFactor * 2)
        let hitGround : Bool := decide (v.y < 0) && mv.hit && decide (mv.hitPoint.y < low)
        match MoveCircleFuel n c' mv.newVelocity segs with
        | none => none
        | some (c2, onGround) => some (c2, hitGround || onGround)

/-- MoveEllipse (phys.MoveEllipse): moves an ellipse with a given velocity by
scaling to a unit circle, delegating to MoveCircle, and scaling back.  The
fuel parameter is passed to the underlying MoveCircle loop. -/
def MoveEllipse (fuel : ℕ) (e : Ellipse) (v : Vec) (segs : List Segment) :
    Option (Ellipse × Bool) :=
  let tr : Vec := ⟨1 / e.radii.x, 1 / e.radii.y⟩
  let c : Circle := ⟨e.center.Times tr, 1⟩
  let v2 := v.Times tr
  let trSegs := segs.map (fun s => ⟨s.p0.Times tr, s.p1.Times tr⟩)
  match MoveCircleFuel fuel c v2 trSegs with
  | none => none
  | some (c2, onGround) => some (⟨c2.center.Times e.radii, e.radii⟩, onGround)

end Quart


namespace Quart

/-! Basic facts about the scalar constants and vector operations, used both
for symbolic reasoning and for evaluating the model on concrete inputs. -/

lemma threshold_pos : 0 < Threshold := by norm_num [Threshold]

lemma threshold_lt_half : Threshold < 1 / 2 := by norm_num [Threshold]

lemma sqrtEval {a b : ℝ} (hb : 0 ≤ b) (h : b * b = a) : Real.sqrt a = b := by
  subst h; exact Real.sqrt_mul_self hb

lemma not_f64eq_zero_pos {a : ℝ} (h : Threshold ≤ a) : ¬ Float64Equals a 0 := by
  unfold Float64Equals
  rw [sub_zero]
  exact fun hlt => absurd (lt_of_le_of_lt (le_abs_self a) hlt) (not_lt.mpr h)

lemma not_f64eq_zero_neg {a : ℝ} (h : a ≤ -Threshold) : ¬ Float64Equals a 0 := by
  unfold Float64Equals
  rw [sub_zero]
  intro hlt
  have : -a < Threshold := lt_of_le_of_lt (neg_le_abs a) hlt
  linarith

lemma f64eq_zero_self : Float64Equals 0 0 := by
  unfold Float64Equals
  simpa using threshold_pos

namespace Vec

lemma squaredMagnitude_nonneg (v : Vec) : 0 ≤ v.SquaredMagnitude := by
  unfold SquaredMagnitude
  nlinarith [mul_self_nonneg v.x, mul_self_nonneg v.y]

lemma magnitude_nonneg (v : Vec) : 0 ≤ v.Magnitude := Real.sqrt_nonneg _

lemma magnitude_mul_self (v : Vec) : v.Magnitude * v.Magnitude = v.SquaredMagnitude :=
  Real.mul_self_sqrt (squaredMagnitude_nonneg v)

lemma magnitude_eval {v : Vec} {m : ℝ} (h0 : 0 ≤ m) (h : v.SquaredMagnitude = m * m) :
    v.Magnitude = m := by
  unfold Magnitude; rw [h]; exact Real.sqrt_mul_self h0

lemma sqmag_pos_of_ne {v : Vec} (h : v.SquaredMagnitude ≠ 0) : 0 < v.SquaredMagnitude :=
  lt_of_le_of_ne (squaredMagnitude_nonneg v) (Ne.symm h)

lemma magnitude_pos {v : Vec} (h : v.SquaredMagnitude ≠ 0) : 0 < v.Magnitude :=
  Real.sqrt_pos.mpr (sqmag_pos_of_ne h)

lemma unit_squaredMagnitude {v : Vec} (h : v.SquaredMagnitude ≠ 0) :
    v.Unit.SquaredMagnitude = 1 := by
  have hm := magnitude_mul_self v
  have hmp := magnitude_pos h
  unfold Unit SquaredMagnitude at *
  field_simp
  nlinarith [hm]

lemma unit_magnitude {v : Vec} (h : v.SquaredMagnitude ≠ 0) : v.Unit.Magnitude = 1 := by
  have := unit_squaredMagnitude h
  unfold Magnitude
  rw [this, Real.sqrt_one]

lemma not_nearZero_of_big_x {v : Vec} (h : Threshold ≤ v.x ∨ v.x ≤ -Threshold) :
    ¬ v.NearZero := by
  unfold NearZero
  rcases h with h | h
  · exact fun hn => not_f64eq_zero_pos h hn.1
  · exact fun hn => not_f64eq_zero_neg h hn.1

lemma not_nearZero_of_big_y {v : Vec} (h : Threshold ≤ v.y ∨ v.y ≤ -Threshold) :
    ¬ v.NearZero := by
  unfold NearZero
  rcases h with h | h
  · exact fun hn => not_f64eq_zero_pos h hn.2
  · exact fun hn => not_f64eq_zero_neg h hn.2

lemma nearZero_zero : Vec.NearZero ⟨0, 0⟩ := ⟨f64eq_zero_self, f64eq_zero_self⟩

lemma sqmag_ne_of_not_nearZero {v : Vec} (h : ¬ v.NearZero) : v.SquaredMagnitude ≠ 0 := by
  intro hz
  apply h
  have hx : v.x = 0 ∧ v.y = 0 := by
    unfold SquaredMagnitude at hz
    constructor <;> nlinarith [sq_nonneg v.x, sq_nonneg v.y]
  constructor
  · rw [hx.1]; exact f64eq_zero_self
  · rw [hx.2]; exact f64eq_zero_self

end Vec

/-! Conditional evaluation lemmas: each reduces one of the model's operations
to its value on a branch, given the branch conditions as hypotheses.  They
are used both to evaluate the model on concrete inputs and to destructure
hypotheses in the symbolic proofs. -/

lemma planeIntersection_eval {r : Ray} {p : Plane}
    (h : ¬ Float64Equals (r.direction.Dot p.normal) 0) :
    r.PlaneIntersection p =
      some (-(p.normal.Dot r.origin.toVec + -(p.normal.Dot p.origin.toVec)) /
              (r.direction.Dot p.normal)) := by
  unfold Ray.PlaneIntersection
  rw [if_neg h]

lemma planeIntersection_none {r : Ray} {p : Plane}
    (h : Float64Equals (r.direction.Dot p.normal) 0) :
    r.PlaneIntersection p = none := by
  unfold Ray.PlaneIntersection
  rw [if_pos h]

lemma sphereIntersection_eval {r : Ray} {s : Sphere} {D : ℝ}
    (hdisc : s.radius * s.radius -
        ((s.center.Minus r.origin).SquaredMagnitude -
          (s.center.Minus r.origin).Dot r.direction *
            (s.center.Minus r.origin).Dot r.direction) = D)
    (h0 : 0 ≤ D) :
    r.SphereIntersection s =
      some ((s.center.Minus r.origin).Dot r.direction - Real.sqrt D) := by
  simp only [Ray.SphereIntersection]
  rw [Vec.magnitude_mul_self, hdisc, if_neg (not_lt.mpr h0)]

lemma sphereIntersection_none {r : Ray} {s : Sphere} {D : ℝ}
    (hdisc : s.radius * s.radius -
        ((s.center.Minus r.origin).SquaredMagnitude -
          (s.center.Minus r.origin).Dot r.direction *
            (s.center.Minus r.origin).Dot r.direction) = D)
    (h0 : D < 0) :
    r.SphereIntersection s = none := by
  simp only [Ray.SphereIntersection]
  rw [Vec.magnitude_mul_self, hdisc, if_pos h0]

lemma circlePlaneHit_embedded {c : Circle} {v : Vec} {p : Plane} {d : ℝ}
    (h1 : Ray.PlaneIntersection ⟨c.center, p.normal.Inverse⟩ p = some d)
    (hd0 : 0 ≤ d) (hdr : d ≤ c.radius) :
    circlePlaneHit c v p = some (c.center.Plus (p.normal.Inverse.ScaledBy d)) := by
  simp only [circlePlaneHit, h1]
  rw [if_neg (not_lt.mpr hd0), if_pos hdr]

lemma circlePlaneHit_far {c : Circle} {v : Vec} {p : Plane} {d d2 : ℝ}
    (h1 : Ray.PlaneIntersection ⟨c.center, p.normal.Inverse⟩ p = some d)
    (hd0 : 0 ≤ d) (hdr : c.radius < d)
    (h2 : Ray.PlaneIntersection
        ⟨c.center.Plus (p.normal.Inverse.ScaledBy c.radius), v.Unit⟩ p = some d2)
    (hd2 : 0 ≤ d2) :
    circlePlaneHit c v p =
      some ((c.center.Plus (p.normal.Inverse.ScaledBy c.radius)).Plus
              (v.Unit.ScaledBy d2)) := by
  simp only [circlePlaneHit, h1]
  rw [if_neg (not_lt.mpr hd0), if_neg (not_le.mpr hdr)]
  simp only [h2]
  rw [if_neg (not_lt.mpr hd2)]

lemma circleSegmentHit_eval {c : Circle} {v : Vec} {s : Segment} {ph : Pt} {d : ℝ}
    (h1 : circlePlaneHit c v s.Line = some ph)
    (h2 : Ray.SphereIntersection ⟨s.NearestPoint ph, v.Inverse.Unit⟩ c = some d)
    (hd0 : 0 ≤ d) (hdv : d ≤ v.Magnitude) :
    circleSegmentHit c v s = some (d, s.NearestPoint ph) := by
  simp only [circleSegmentHit, h1, h2]
  rw [if_neg]
  push_neg
  exact ⟨hd0, hdv⟩

lemma nearestPoint_mid {s : Segment} {p : Pt}
    (h0 : 0 ≤ ((s.p1.Minus s.p0).Unit).Dot (p.Minus s.p0))
    (h1 : ((s.p1.Minus s.p0).Unit).Dot (p.Minus s.p0) ≤ (s.p1.Minus s.p0).Magnitude) :
    s.NearestPoint p =
      s.p0.Plus (((s.p1.Minus s.p0).Unit).ScaledBy
        (((s.p1.Minus s.p0).Unit).Dot (p.Minus s.p0))) := by
  unfold Segment.NearestPoint
  rw [if_neg (not_lt.mpr h0), if_neg (not_lt.mpr h1)]

lemma bestHit_singleton (c : Circle) (v : Vec) (s : Segment) :
    bestHit c v [s] = circleSegmentHit c v s := by
  unfold bestHit bestHitStep
  cases h : circleSegmentHit c v s with
  | none => simp [List.foldl, h]
  | some dp => cases dp with
    | mk d pt => simp [List.foldl, h]

lemma moveCircle1_hit {c : Circle} {v : Vec} {segs : List Segment}
    {dist : ℝ} {hitPt : Pt} {n : Vec} {dest : Pt} {d : ℝ}
    (hb : bestHit c v segs = some (dist, hitPt))
    (hn : (hitPt.Minus (c.center.Plus (v.Unit.ScaledBy dist))).Unit = n)
    (hdest : hitPt.Plus (v.Unit.ScaledBy (v.Magnitude - dist)) = dest)
    (hpi : Ray.PlaneIntersection ⟨dest, n⟩ ⟨hitPt, n⟩ = some d) :
    moveCircle1 c v segs =
      some ⟨dist - Threshold, (dest.Plus (n.Unit.ScaledBy d)).Minus hitPt,
            true, hitPt⟩ := by
  simp only [moveCircle1, hb]
  rw [hn, hdest]
  simp only [hpi]

lemma moveCircle1_miss {c : Circle} {v : Vec} {segs : List Segment}
    (hb : bestHit c v segs = none) :
    moveCircle1 c v segs = some ⟨v.Magnitude, Vec.zero, false, Pt.zero⟩ := by
  simp only [moveCircle1, hb]

lemma moveCircleFuel_done {n : ℕ} {c : Circle} {v : Vec} {segs : List Segment}
    (h : v.NearZero) : MoveCircleFuel n c v segs = some (c, false) := by
  cases n <;> · unfold MoveCircleFuel; rw [if_pos h]

lemma moveCircleFuel_step {n : ℕ} {c : Circle} {v : Vec} {segs : List Segment}
    {mv : Move} {out : Circle × Bool}
    (hnz : ¬ v.NearZero) (h1 : moveCircle1 c v segs = some mv)
    (hrec : MoveCircleFuel n ⟨c.center.Plus (v.Unit.ScaledBy mv.distance), c.radius⟩
        mv.newVelocity segs = some out) :
    MoveCircleFuel (n + 1) c v segs =
      some (out.1,
        (decide (v.y < 0) && mv.hit &&
          decide (mv.hitPoint.y <
            (c.center.Plus (v.Unit.ScaledBy mv.distance)).y -
              c.radius * (1 - bottomFactor * 2))) || out.2) := by
  rw [MoveCircleFuel]
  rw [if_neg hnz]
  simp only [h1, hrec]

end Quart

namespace Quart

/-! Claim C4: the direction of the rotation that produces a segment's normal. -/

/-- Rotation of a vector by -90 degrees in the standard mathematical
convention (x, y) to (y, -x), following the spec's words for the segment
normal. -/
def specRotateMinus90 (v : Vec) : Vec := ⟨v.y, -v.x⟩

/-- Rotation of a vector by +90 degrees, counterclockwise in the standard
mathematical convention: (x, y) to (-y, x). -/
def rotate90 (v : Vec) : Vec := ⟨-v.y, v.x⟩

lemma unit_oneZero : (Vec.mk 1 0).Unit = ⟨1, 0⟩ := by
  unfold Vec.Unit
  rw [Vec.magnitude_eval (m := 1) (by norm_num) (by norm_num [Vec.SquaredMagnitude])]
  norm_num

/-- C4 counterexample: for the segment from (0,0) to (1,0), Segment.Normal
returns (0,1), while rotating the unit direction (1,0) by -90 degrees gives
(0,-1).  The claim fails at this segment. -/
theorem c4_counterexample :
    Segment.Normal ⟨⟨0, 0⟩, ⟨1, 0⟩⟩ ≠
      specRotateMinus90 ((Pt.mk 1 0 |>.Minus ⟨0, 0⟩).Unit) := by
  have hd : (Pt.mk 1 0 |>.Minus ⟨0, 0⟩) = Vec.mk 1 0 := by
    norm_num [Pt.Minus]
  have hu : (Pt.mk 1 0 |>.Minus ⟨0, 0⟩).Unit = Vec.mk 1 0 := by
    rw [hd, unit_oneZero]
  have h1 : Segment.Normal ⟨⟨0, 0⟩, ⟨1, 0⟩⟩ = ⟨0, 1⟩ := by
    simp only [Segment.Normal]
    rw [hu]
    norm_num
  have h2 : specRotateMinus90 ((Pt.mk 1 0 |>.Minus ⟨0, 0⟩).Unit) = ⟨0, -1⟩ := by
    rw [hu]
    norm_num [specRotateMinus90]
  rw [h1, h2]
  intro h
  have := congrArg Vec.y h
  norm_num at this

/-- C4 (amended): for every segment with distinct endpoints, Segment.Normal
equals the unit direction from p0 to p1 rotated by +90 degrees
(counterclockwise), not -90 degrees. -/
theorem c4_normal_is_plus90 (s : Segment) (_h : s.p0 ≠ s.p1) :
    s.Normal = rotate90 ((s.p1.Minus s.p0).Unit) := rfl

/-- C4 witness: the amended statement instantiated at the segment from
(0,0) to (1,0). -/
theorem c4_witness :
    (Segment.mk ⟨0, 0⟩ ⟨1, 0⟩).p0 ≠ (Segment.mk ⟨0, 0⟩ ⟨1, 0⟩).p1 ∧
      (Segment.mk ⟨0, 0⟩ ⟨1, 0⟩).Normal =
        rotate90 (((Segment.mk ⟨0, 0⟩ ⟨1, 0⟩).p1.Minus
          (Segment.mk ⟨0, 0⟩ ⟨1, 0⟩).p0).Unit) := by
  constructor
  · intro h
    have := congrArg Pt.x h
    norm_num at this
  · exact c4_normal_is_plus90 _ (by intro h; have := congrArg Pt.x h; norm_num at this)

end Quart

namespace Quart

/-! Wall scenario shared by claims C2 and C3: unit circle at the origin and
a vertical wall segment from (5,-10) to (5,10). -/

/-- Vertical wall segment from (5,-10) to (5,10). -/
def wallSeg : Segment := ⟨⟨5, -10⟩, ⟨5, 10⟩⟩

/-- Unit circle at the origin. -/
def circleO : Circle := ⟨⟨0, 0⟩, 1⟩

lemma wall_normal : wallSeg.Normal = ⟨-1, 0⟩ := by
  simp only [wallSeg, Segment.Normal]
  have hd : (Pt.mk 5 10 |>.Minus ⟨5, -10⟩) = Vec.mk 0 20 := by norm_num [Pt.Minus]
  have hu : (Pt.mk 5 10 |>.Minus ⟨5, -10⟩).Unit = Vec.mk 0 1 := by
    rw [hd]
    unfold Vec.Unit
    rw [Vec.magnitude_eval (m := 20) (by norm_num) (by norm_num [Vec.SquaredMagnitude])]
    norm_num
  rw [hu]

lemma wall_line : wallSeg.Line = ⟨⟨5, -10⟩, ⟨-1, 0⟩⟩ := by
  simp only [Segment.Line, wall_normal]
  rfl

lemma mag_ten : (Vec.mk 10 0).Magnitude = 10 :=
  Vec.magnitude_eval (by norm_num) (by norm_num [Vec.SquaredMagnitude])

lemma unit_ten : (Vec.mk 10 0).Unit = ⟨1, 0⟩ := by
  unfold Vec.Unit
  rw [mag_ten]
  norm_num

lemma c2_planeHit : circlePlaneHit circleO ⟨10, 0⟩ wallSeg.Line = some ⟨5, 0⟩ := by
  rw [wall_line]
  have h1 : Ray.PlaneIntersection ⟨circleO.center, (Vec.mk (-1) 0).Inverse⟩
      ⟨⟨5, -10⟩, ⟨-1, 0⟩⟩ = some 5 := by
    rw [planeIntersection_eval (not_f64eq_zero_neg (by
      norm_num [Vec.Dot, Vec.Inverse, Threshold, circleO]))]
    norm_num [Vec.Dot, Vec.Inverse, Pt.toVec, circleO]
  have h2 : Ray.PlaneIntersection
      ⟨circleO.center.Plus ((Vec.mk (-1) 0).Inverse.ScaledBy circleO.radius),
        (Vec.mk 10 0).Unit⟩ ⟨⟨5, -10⟩, ⟨-1, 0⟩⟩ = some 4 := by
    rw [planeIntersection_eval (not_f64eq_zero_neg (by
      norm_num [unit_ten, Vec.Dot, Threshold]))]
    norm_num [unit_ten, Vec.Dot, Vec.Inverse, Vec.ScaledBy, Pt.toVec, Pt.Plus, circleO]
  rw [circlePlaneHit_far h1 (by norm_num) (by norm_num [circleO]) h2 (by norm_num)]
  norm_num [unit_ten, Vec.Inverse, Vec.ScaledBy, Pt.Plus, circleO]

lemma c2_nearest : wallSeg.NearestPoint ⟨5, 0⟩ = ⟨5, 0⟩ := by
  have hd : ((wallSeg.p1).Minus wallSeg.p0) = Vec.mk 0 20 := by
    norm_num [wallSeg, Pt.Minus]
  have hu : ((wallSeg.p1).Minus wallSeg.p0).Unit = Vec.mk 0 1 := by
    rw [hd]
    unfold Vec.Unit
    rw [Vec.magnitude_eval (m := 20) (by norm_num) (by norm_num [Vec.SquaredMagnitude])]
    norm_num
  have hdot : ((wallSeg.p1.Minus wallSeg.p0).Unit).Dot ((Pt.mk 5 0).Minus wallSeg.p0) = 10 := by
    rw [hu]
    norm_num [Vec.Dot, Pt.Minus, wallSeg]
  rw [nearestPoint_mid (by rw [hdot]; norm_num) (by
    rw [hdot, hd, Vec.magnitude_eval (m := 20) (by norm_num)
      (by norm_num [Vec.SquaredMagnitude])]
    norm_num)]
  rw [hdot, hu]
  norm_num [Pt.Plus, Vec.ScaledBy, wallSeg]

lemma c2_sphere :
    Ray.SphereIntersection ⟨⟨5, 0⟩, (Vec.mk 10 0).Inverse.Unit⟩ circleO = some 4 := by
  have hiu : (Vec.mk 10 0).Inverse.Unit = Vec.mk (-1) 0 := by
    rw [show (Vec.mk 10 0).Inverse = Vec.mk (-10) 0 by norm_num [Vec.Inverse]]
    unfold Vec.Unit
    rw [Vec.magnitude_eval (m := 10) (by norm_num) (by norm_num [Vec.SquaredMagnitude])]
    norm_num
  rw [hiu]
  rw [sphereIntersection_eval (D := 1) (by
    norm_num [circleO, Pt.Minus, Vec.Dot, Vec.SquaredMagnitude]) (by norm_num)]
  rw [Real.sqrt_one]
  norm_num [circleO, Pt.Minus, Vec.Dot]

lemma c2_segHit : circleSegmentHit circleO ⟨10, 0⟩ wallSeg = some (4, ⟨5, 0⟩) := by
  have h := circleSegmentHit_eval c2_planeHit (by rw [c2_nearest]; exact c2_sphere)
    (by norm_num) (by rw [mag_ten]; norm_num)
  rw [h, c2_nearest]

lemma c2_move1 : moveCircle1 circleO ⟨10, 0⟩ [wallSeg] =
    some ⟨4 - Threshold, ⟨0, 0⟩, true, ⟨5, 0⟩⟩ := by
  have hb : bestHit circleO ⟨10, 0⟩ [wallSeg] = some (4, ⟨5, 0⟩) := by
    rw [bestHit_singleton, c2_segHit]
  have hn : ((Pt.mk 5 0).Minus (circleO.center.Plus ((Vec.mk 10 0).Unit.ScaledBy 4))).Unit
      = Vec.mk 1 0 := by
    rw [unit_ten]
    rw [show (circleO.center.Plus ((Vec.mk 1 0).ScaledBy 4)) = Pt.mk 4 0 by
      norm_num [circleO, Pt.Plus, Vec.ScaledBy]]
    rw [show ((Pt.mk 5 0).Minus (Pt.mk 4 0)) = Vec.mk 1 0 by norm_num [Pt.Minus]]
    exact unit_oneZero
  have hdest : (Pt.mk 5 0).Plus ((Vec.mk 10 0).Unit.ScaledBy ((Vec.mk 10 0).Magnitude - 4))
      = Pt.mk 11 0 := by
    rw [unit_ten, mag_ten]
    norm_num [Pt.Plus, Vec.ScaledBy]
  have hpi : Ray.PlaneIntersection ⟨⟨11, 0⟩, ⟨1, 0⟩⟩ ⟨⟨5, 0⟩, ⟨1, 0⟩⟩ = some (-6) := by
    rw [planeIntersection_eval (not_f64eq_zero_pos (by norm_num [Vec.Dot, Threshold]))]
    norm_num [Vec.Dot, Pt.toVec]
  rw [moveCircle1_hit hb hn hdest hpi]
  rw [show (Vec.mk 1 0).Unit = Vec.mk 1 0 from unit_oneZero]
  norm_num [Pt.Plus, Pt.Minus, Vec.ScaledBy]

end Quart

namespace Quart

/-- C2: end-to-end scenario.  For the unit circle at the origin with velocity
(10, 0) against the vertical wall from (5,-10) to (5,10), the MoveCircle loop
(two iterations of fuel suffice) stops with center exactly (4 - Threshold, 0)
and no ground flag, and the single resolver iteration returns the zero vector
as the residual velocity at loop exit. -/
theorem c2_end_to_end :
    MoveCircleFuel 2 circleO ⟨10, 0⟩ [wallSeg] =
      some (⟨⟨4 - Threshold, 0⟩, 1⟩, false) ∧
    moveCircle1 circleO ⟨10, 0⟩ [wallSeg] =
      some ⟨4 - Threshold, ⟨0, 0⟩, true, ⟨5, 0⟩⟩ := by
  refine ⟨?_, c2_move1⟩
  have hnz : ¬ (Vec.mk 10 0).NearZero :=
    Vec.not_nearZero_of_big_x (Or.inl (by norm_num [Threshold]))
  have hrec : MoveCircleFuel 1
      ⟨circleO.center.Plus ((Vec.mk 10 0).Unit.ScaledBy
        (Move.mk (4 - Threshold) ⟨0, 0⟩ true ⟨5, 0⟩).distance), circleO.radius⟩
      (Move.mk (4 - Threshold) ⟨0, 0⟩ true ⟨5, 0⟩).newVelocity [wallSeg] =
      some (⟨circleO.center.Plus ((Vec.mk 10 0).Unit.ScaledBy
        (Move.mk (4 - Threshold) ⟨0, 0⟩ true ⟨5, 0⟩).distance), circleO.radius⟩, false) :=
    moveCircleFuel_done Vec.nearZero_zero
  rw [moveCircleFuel_step hnz c2_move1 hrec]
  rw [unit_ten]
  have hb : decide ((Vec.mk 10 0).y < 0) = false := by
    apply decide_eq_false
    norm_num
  rw [hb]
  simp only [Bool.false_and, Bool.false_or, Bool.or_false]
  norm_num [circleO, Pt.Plus, Vec.ScaledBy]

end Quart

namespace Quart

/-! Claim C3: 45-degree approach to the vertical wall. -/

lemma sqrt2_mul_self : Real.sqrt 2 * Real.sqrt 2 = 2 :=
  Real.mul_self_sqrt (by norm_num)

lemma sqrt2_nonneg : (0 : ℝ) ≤ Real.sqrt 2 := Real.sqrt_nonneg 2

lemma one_le_sqrt2 : (1 : ℝ) ≤ Real.sqrt 2 := by
  nlinarith [sqrt2_mul_self, sqrt2_nonneg]

lemma sqrt2_ne : Real.sqrt 2 ≠ 0 := by
  intro h
  have := sqrt2_mul_self
  rw [h] at this
  norm_num at this

lemma mag_1010 : (Vec.mk 10 10).Magnitude = 10 * Real.sqrt 2 := by
  apply Vec.magnitude_eval (by positivity)
  unfold Vec.SquaredMagnitude
  norm_num
  nlinarith [sqrt2_mul_self]

lemma unit_1010 : (Vec.mk 10 10).Unit = ⟨Real.sqrt 2 / 2, Real.sqrt 2 / 2⟩ := by
  unfold Vec.Unit
  rw [mag_1010]
  have h2 := sqrt2_mul_self
  have hne := sqrt2_ne
  congr 1 <;> · field_simp; linarith

lemma c3_planeHit : circlePlaneHit circleO ⟨10, 10⟩ wallSeg.Line = some ⟨5, 4⟩ := by
  rw [wall_line]
  have h1 : Ray.PlaneIntersection ⟨circleO.center, (Vec.mk (-1) 0).Inverse⟩
      ⟨⟨5, -10⟩, ⟨-1, 0⟩⟩ = some 5 := by
    rw [planeIntersection_eval (not_f64eq_zero_neg (by
      norm_num [Vec.Dot, Vec.Inverse, Threshold, circleO]))]
    norm_num [Vec.Dot, Vec.Inverse, Pt.toVec, circleO]
  have hden : (Vec.mk 10 10).Unit.Dot (Vec.mk (-1) 0) = -(Real.sqrt 2 / 2) := by
    rw [unit_1010]
    simp only [Vec.Dot]
    ring
  have h2 : Ray.PlaneIntersection
      ⟨circleO.center.Plus ((Vec.mk (-1) 0).Inverse.ScaledBy circleO.radius),
        (Vec.mk 10 10).Unit⟩ ⟨⟨5, -10⟩, ⟨-1, 0⟩⟩ = some (4 * Real.sqrt 2) := by
    rw [planeIntersection_eval (by
      rw [show (Ray.mk (circleO.center.Plus ((Vec.mk (-1) 0).Inverse.ScaledBy
            circleO.radius)) (Vec.mk 10 10).Unit).direction = (Vec.mk 10 10).Unit from rfl]
      rw [show (Plane.mk ⟨5, -10⟩ ⟨-1, 0⟩).normal = Vec.mk (-1) 0 from rfl, hden]
      apply not_f64eq_zero_neg
      have := one_le_sqrt2
      have := threshold_lt_half
      linarith)]
    rw [show (Ray.mk (circleO.center.Plus ((Vec.mk (-1) 0).Inverse.ScaledBy
          circleO.radius)) (Vec.mk 10 10).Unit).direction = (Vec.mk 10 10).Unit from rfl]
    rw [show (Plane.mk ⟨5, -10⟩ ⟨-1, 0⟩).normal = Vec.mk (-1) 0 from rfl, hden]
    have h2 := sqrt2_mul_self
    have hne := sqrt2_ne
    simp only [Vec.Dot, Vec.Inverse, Vec.ScaledBy, Pt.toVec, Pt.Plus, circleO,
      Option.some.injEq]
    field_simp
    nlinarith

  rw [circlePlaneHit_far h1 (by norm_num) (by norm_num [circleO]) h2 (by positivity)]
  rw [unit_1010]
  have h2 := sqrt2_mul_self
  simp only [Vec.Inverse, Vec.ScaledBy, Pt.Plus, circleO, Option.some.injEq, Pt.mk.injEq]
  norm_num
  (try constructor) <;> nlinarith

lemma c3_nearest : wallSeg.NearestPoint ⟨5, 4⟩ = ⟨5, 4⟩ := by
  have hd : ((wallSeg.p1).Minus wallSeg.p0) = Vec.mk 0 20 := by
    norm_num [wallSeg, Pt.Minus]
  have hu : ((wallSeg.p1).Minus wallSeg.p0).Unit = Vec.mk 0 1 := by
    rw [hd]
    unfold Vec.Unit
    rw [Vec.magnitude_eval (m := 20) (by norm_num) (by norm_num [Vec.SquaredMagnitude])]
    norm_num
  have hdot : ((wallSeg.p1.Minus wallSeg.p0).Unit).Dot ((Pt.mk 5 4).Minus wallSeg.p0) = 14 := by
    rw [hu]
    norm_num [Vec.Dot, Pt.Minus, wallSeg]
  rw [nearestPoint_mid (by rw [hdot]; norm_num) (by
    rw [hdot, hd, Vec.magnitude_eval (m := 20) (by norm_num)
      (by norm_num [Vec.SquaredMagnitude])]
    norm_num)]
  rw [hdot, hu]
  norm_num [Pt.Plus, Vec.ScaledBy, wallSeg]

lemma c3_inv_unit : (Vec.mk 10 10).Inverse.Unit = ⟨-(Real.sqrt 2 / 2), -(Real.sqrt 2 / 2)⟩ := by
  rw [show (Vec.mk 10 10).Inverse = Vec.mk (-10) (-10) by norm_num [Vec.Inverse]]
  unfold Vec.Unit
  rw [Vec.magnitude_eval (m := 10 * Real.sqrt 2) (by positivity)
    (by unfold Vec.SquaredMagnitude; norm_num; nlinarith [sqrt2_mul_self])]
  have h2 := sqrt2_mul_self
  have hne := sqrt2_ne
  congr 1 <;> · field_simp; linarith

lemma c3_sphere :
    Ray.SphereIntersection ⟨⟨5, 4⟩, (Vec.mk 10 10).Inverse.Unit⟩ circleO =
      some (4 * Real.sqrt 2) := by
  have h2 := sqrt2_mul_self
  have hvd : ((circleO.center.Minus (Pt.mk 5 4)).Dot
      ((Vec.mk 10 10).Inverse.Unit)) = 9 * Real.sqrt 2 / 2 := by
    rw [c3_inv_unit]
    norm_num [circleO, Pt.Minus, Vec.Dot]
    ring
  rw [sphereIntersection_eval (D := 1 / 2) ?hd (by norm_num)]
  case hd =>
    rw [show (Ray.mk ⟨5, 4⟩ ((Vec.mk 10 10).Inverse.Unit)).direction =
          (Vec.mk 10 10).Inverse.Unit from rfl]
    rw [show (Sphere.mk circleO.center circleO.radius).center = circleO.center from rfl]
    rw [hvd]
    norm_num [circleO, Pt.Minus, Vec.SquaredMagnitude]
    nlinarith
  rw [show (Ray.mk ⟨5, 4⟩ ((Vec.mk 10 10).Inverse.Unit)).direction =
        (Vec.mk 10 10).Inverse.Unit from rfl]
  rw [show (Sphere.mk circleO.center circleO.radius).center = circleO.center from rfl]
  rw [hvd]
  rw [show Real.sqrt (1 / 2) = Real.sqrt 2 / 2 from
    sqrtEval (by positivity) (by nlinarith)]
  ring_nf

lemma c3_segHit : circleSegmentHit circleO ⟨10, 10⟩ wallSeg =
    some (4 * Real.sqrt 2, ⟨5, 4⟩) := by
  have h := circleSegmentHit_eval c3_planeHit (by rw [c3_nearest]; exact c3_sphere)
    (by positivity) (by rw [mag_1010]; nlinarith [sqrt2_nonneg])
  rw [h, c3_nearest]

lemma c3_move1 : moveCircle1 circleO ⟨10, 10⟩ [wallSeg] =
    some ⟨4 * Real.sqrt 2 - Threshold, ⟨0, 6⟩, true, ⟨5, 4⟩⟩ := by
  have h2 := sqrt2_mul_self
  have hb : bestHit circleO ⟨10, 10⟩ [wallSeg] = some (4 * Real.sqrt 2, ⟨5, 4⟩) := by
    rw [bestHit_singleton, c3_segHit]
  have hc : circleO.center.Plus ((Vec.mk 10 10).Unit.ScaledBy (4 * Real.sqrt 2)) =
      Pt.mk 4 4 := by
    rw [unit_1010]
    norm_num [circleO, Pt.Plus, Vec.ScaledBy]
    (try constructor) <;> nlinarith
  have hn : ((Pt.mk 5 4).Minus (circleO.center.Plus
      ((Vec.mk 10 10).Unit.ScaledBy (4 * Real.sqrt 2)))).Unit = Vec.mk 1 0 := by
    rw [hc]
    rw [show ((Pt.mk 5 4).Minus (Pt.mk 4 4)) = Vec.mk 1 0 by norm_num [Pt.Minus]]
    exact unit_oneZero
  have hdest : (Pt.mk 5 4).Plus ((Vec.mk 10 10).Unit.ScaledBy
      ((Vec.mk 10 10).Magnitude - 4 * Real.sqrt 2)) = Pt.mk 11 10 := by
    rw [unit_1010, mag_1010]
    norm_num [Pt.Plus, Vec.ScaledBy]
    (try constructor) <;> nlinarith
  have hpi : Ray.PlaneIntersection ⟨⟨11, 10⟩, ⟨1, 0⟩⟩ ⟨⟨5, 4⟩, ⟨1, 0⟩⟩ = some (-6) := by
    rw [planeIntersection_eval (not_f64eq_zero_pos (by norm_num [Vec.Dot, Threshold]))]
    norm_num [Vec.Dot, Pt.toVec]
  rw [moveCircle1_hit hb hn hdest hpi]
  rw [show (Vec.mk 1 0).Unit = Vec.mk 1 0 from unit_oneZero]
  norm_num [Pt.Plus, Pt.Minus, Vec.ScaledBy]

/-- C3 counterexample: in the 45-degree wall scenario the resolver's new
velocity is exactly (0, 6); its y-component 6 is not approximately 10 (it
differs from 10 by 4, far beyond the Threshold epsilon). -/
theorem c3_counterexample :
    (moveCircle1 circleO ⟨10, 10⟩ [wallSeg]).map Move.newVelocity = some ⟨0, 6⟩ ∧
      ¬ Float64Equals (6 : ℝ) 10 := by
  constructor
  · rw [c3_move1]
    rfl
  · unfold Float64Equals
    rw [show |(6 : ℝ) - 10| = 4 by rw [abs_of_nonpos] <;> norm_num]
    norm_num [Threshold]

/-- C3 (amended): for the 45-degree approach, the first resolver iteration
returns a velocity whose x-component is exactly zero and whose y-component is
6: the unresolved remainder of the displacement (of magnitude 6 * sqrt 2)
projected onto the vertical sliding plane, not 10. -/
theorem c3_slide_velocity :
    moveCircle1 circleO ⟨10, 10⟩ [wallSeg] =
      some ⟨4 * Real.sqrt 2 - Threshold, ⟨0, 6⟩, true, ⟨5, 4⟩⟩ := c3_move1

end Quart

namespace Quart

/-! Claim C5: when no segment produces a hit, the circle travels the full
velocity magnitude and the returned new velocity is the zero vector. -/

lemma bestHitStep_none {c : Circle} {v : Vec} {acc : Option (ℝ × Pt)} {s : Segment}
    (h : circleSegmentHit c v s = none) : bestHitStep c v acc s = acc := by
  simp only [bestHitStep, h]

lemma bestHit_none {c : Circle} {v : Vec} {segs : List Segment}
    (h : ∀ s ∈ segs, circleSegmentHit c v s = none) : bestHit c v segs = none := by
  unfold bestHit
  induction segs with
  | nil => rfl
  | cons s t ih =>
    rw [List.foldl_cons, bestHitStep_none (h s (List.mem_cons_self s t))]
    exact ih fun s hs => h s (List.mem_cons_of_mem _ hs)

/-- C5: for every circle, non-zero velocity, and segment list in which no
segment produces a hit from the contact finder, moveCircle1 returns the full
velocity magnitude as the travel distance and the zero vector as the new
velocity. -/
theorem c5_no_hit_full_travel (c : Circle) (v : Vec) (segs : List Segment)
    (_hv : v ≠ Vec.zero) (h : ∀ s ∈ segs, circleSegmentHit c v s = none) :
    moveCircle1 c v segs = some ⟨v.Magnitude, Vec.zero, false, Pt.zero⟩ :=
  moveCircle1_miss (bestHit_none h)

lemma mag_one : (Vec.mk 1 0).Magnitude = 1 :=
  Vec.magnitude_eval (by norm_num) (by norm_num [Vec.SquaredMagnitude])

lemma c5_planeHit : circlePlaneHit circleO ⟨1, 0⟩ wallSeg.Line = some ⟨5, 0⟩ := by
  rw [wall_line]
  have h1 : Ray.PlaneIntersection ⟨circleO.center, (Vec.mk (-1) 0).Inverse⟩
      ⟨⟨5, -10⟩, ⟨-1, 0⟩⟩ = some 5 := by
    rw [planeIntersection_eval (not_f64eq_zero_neg (by
      norm_num [Vec.Dot, Vec.Inverse, Threshold, circleO]))]
    norm_num [Vec.Dot, Vec.Inverse, Pt.toVec, circleO]
  have h2 : Ray.PlaneIntersection
      ⟨circleO.center.Plus ((Vec.mk (-1) 0).Inverse.ScaledBy circleO.radius),
        (Vec.mk 1 0).Unit⟩ ⟨⟨5, -10⟩, ⟨-1, 0⟩⟩ = some 4 := by
    rw [planeIntersection_eval (not_f64eq_zero_neg (by
      norm_num [unit_oneZero, Vec.Dot, Threshold]))]
    norm_num [unit_oneZero, Vec.Dot, Vec.Inverse, Vec.ScaledBy, Pt.toVec, Pt.Plus, circleO]
  rw [circlePlaneHit_far h1 (by norm_num) (by norm_num [circleO]) h2 (by norm_num)]
  norm_num [unit_oneZero, Vec.Inverse, Vec.ScaledBy, Pt.Plus, circleO]

lemma c5_inv_unit : (Vec.mk 1 0).Inverse.Unit = ⟨-1, 0⟩ := by
  rw [show (Vec.mk 1 0).Inverse = Vec.mk (-1) 0 by norm_num [Vec.Inverse]]
  unfold Vec.Unit
  rw [Vec.magnitude_eval (m := 1) (by norm_num) (by norm_num [Vec.SquaredMagnitude])]
  norm_num

lemma c5_segHit_none : circleSegmentHit circleO ⟨1, 0⟩ wallSeg = none := by
  have h2 : Ray.SphereIntersection ⟨wallSeg.NearestPoint ⟨5, 0⟩,
      (Vec.mk 1 0).Inverse.Unit⟩ circleO = some 4 := by
    rw [c2_nearest, c5_inv_unit]
    rw [sphereIntersection_eval (D := 1) (by
      norm_num [circleO, Pt.Minus, Vec.Dot, Vec.SquaredMagnitude]) (by norm_num)]
    rw [Real.sqrt_one]
    norm_num [circleO, Pt.Minus, Vec.Dot]
  simp only [circleSegmentHit, c5_planeHit, h2]
  rw [if_pos]
  right
  rw [mag_one]
  norm_num

/-- C5 witness: the unit circle at the origin moving with velocity (1, 0)
toward the distant wall produces no hit (the collision lies beyond this
step), so moveCircle1 travels the full magnitude 1 with zero residual. -/
theorem c5_witness :
    moveCircle1 circleO ⟨1, 0⟩ [wallSeg] = some ⟨(Vec.mk 1 0).Magnitude, Vec.zero,
      false, Pt.zero⟩ := by
  apply c5_no_hit_full_travel
  · intro h
    have := congrArg Vec.x h
    norm_num [Vec.zero] at this
  · intro s hs
    rw [List.mem_singleton] at hs
    rw [hs]
    exact c5_segHit_none

end Quart

namespace Quart

/-! Parametric head-on wall scenario: circle of radius R at the origin moving
with velocity (V, 0) against the vertical wall segment from (W, -H) to
(W, H).  Used for claim C6 at several scales. -/

lemma headon_normal {W H : ℝ} (hH : 0 < H) :
    (Segment.mk ⟨W, -H⟩ ⟨W, H⟩).Normal = ⟨-1, 0⟩ := by
  simp only [Segment.Normal]
  rw [show ((Segment.mk (Pt.mk W (-H)) (Pt.mk W H)).p1.Minus
        (Segment.mk (Pt.mk W (-H)) (Pt.mk W H)).p0) = Vec.mk 0 (2 * H) by
    simp only [Pt.Minus, Vec.mk.injEq]
    constructor <;> ring]
  unfold Vec.Unit
  rw [Vec.magnitude_eval (m := 2 * H) (by linarith)
    (by simp only [Vec.SquaredMagnitude]; ring)]
  simp only [Vec.mk.injEq]
  constructor
  · rw [div_self (by linarith : 2 * H ≠ 0)]
  · exact zero_div _

lemma headon_line {W H : ℝ} (hH : 0 < H) :
    (Segment.mk ⟨W, -H⟩ ⟨W, H⟩).Line = ⟨⟨W, -H⟩, ⟨-1, 0⟩⟩ := by
  simp only [Segment.Line, headon_normal hH]

lemma unit_pos_x {V : ℝ} (hV : 0 < V) : (Vec.mk V 0).Unit = ⟨1, 0⟩ := by
  unfold Vec.Unit
  rw [Vec.magnitude_eval (m := V) (le_of_lt hV)
    (by simp only [Vec.SquaredMagnitude]; ring)]
  simp only [Vec.mk.injEq]
  exact ⟨div_self (ne_of_gt hV), zero_div V⟩

lemma mag_pos_x {V : ℝ} (hV : 0 ≤ V) : (Vec.mk V 0).Magnitude = V :=
  Vec.magnitude_eval hV (by simp only [Vec.SquaredMagnitude]; ring)

lemma inv_unit_pos_x {V : ℝ} (hV : 0 < V) : (Vec.mk V 0).Inverse.Unit = ⟨-1, 0⟩ := by
  rw [show (Vec.mk V 0).Inverse = Vec.mk (-V) (-0) from rfl]
  unfold Vec.Unit
  rw [Vec.magnitude_eval (m := V) (le_of_lt hV)
    (by simp only [Vec.SquaredMagnitude]; ring)]
  simp only [Vec.mk.injEq]
  constructor
  · rw [neg_div, div_self (ne_of_gt hV)]
  · rw [neg_zero, zero_div]

lemma headon_planeHit {R V W H : ℝ} (hR : 0 ≤ R) (hV : 0 < V) (hRW : R < W)
    (hH : 0 < H) :
    circlePlaneHit ⟨⟨0, 0⟩, R⟩ ⟨V, 0⟩ (Segment.mk ⟨W, -H⟩ ⟨W, H⟩).Line =
      some ⟨W, 0⟩ := by
  rw [headon_line hH]
  have h1 : Ray.PlaneIntersection
      ⟨(Sphere.mk (Pt.mk 0 0) R).center, (Vec.mk (-1) 0).Inverse⟩
      ⟨⟨W, -H⟩, ⟨-1, 0⟩⟩ = some W := by
    rw [planeIntersection_eval (not_f64eq_zero_neg (by
      norm_num [Vec.Dot, Vec.Inverse, Threshold]))]
    simp only [Vec.Dot, Vec.Inverse, Pt.toVec, Option.some.injEq]
    norm_num
  have h2 : Ray.PlaneIntersection
      ⟨(Sphere.mk (Pt.mk 0 0) R).center.Plus
          ((Vec.mk (-1) 0).Inverse.ScaledBy (Sphere.mk (Pt.mk 0 0) R).radius),
        (Vec.mk V 0).Unit⟩ ⟨⟨W, -H⟩, ⟨-1, 0⟩⟩ = some (W - R) := by
    rw [planeIntersection_eval (by
      rw [show (Ray.mk ((Sphere.mk (Pt.mk 0 0) R).center.Plus
            ((Vec.mk (-1) 0).Inverse.ScaledBy (Sphere.mk (Pt.mk 0 0) R).radius))
            (Vec.mk V 0).Unit).direction = (Vec.mk V 0).Unit from rfl]
      rw [unit_pos_x hV]
      apply not_f64eq_zero_neg
      have := threshold_lt_half
      simp only [Vec.Dot]
      linarith)]
    rw [show (Ray.mk ((Sphere.mk (Pt.mk 0 0) R).center.Plus
          ((Vec.mk (-1) 0).Inverse.ScaledBy (Sphere.mk (Pt.mk 0 0) R).radius))
          (Vec.mk V 0).Unit).direction = (Vec.mk V 0).Unit from rfl]
    rw [unit_pos_x hV]
    simp only [Vec.Dot, Vec.Inverse, Vec.ScaledBy, Pt.toVec, Pt.Plus,
      Option.some.injEq]
    norm_num
    ring
  rw [circlePlaneHit_far h1 (by linarith) (by show R < W; exact hRW) h2
    (by linarith)]
  rw [unit_pos_x hV]
  simp only [Vec.Inverse, Vec.ScaledBy, Pt.Plus, Option.some.injEq, Pt.mk.injEq]
  constructor <;> ring

lemma headon_nearest {W H : ℝ} (hH : 0 < H) :
    (Segment.mk ⟨W, -H⟩ ⟨W, H⟩).NearestPoint ⟨W, 0⟩ = ⟨W, 0⟩ := by
  have hd : ((Segment.mk (Pt.mk W (-H)) (Pt.mk W H)).p1.Minus
      (Segment.mk (Pt.mk W (-H)) (Pt.mk W H)).p0) = Vec.mk 0 (2 * H) := by
    simp only [Pt.Minus, Vec.mk.injEq]
    constructor <;> ring
  have hu : ((Segment.mk (Pt.mk W (-H)) (Pt.mk W H)).p1.Minus
      (Segment.mk (Pt.mk W (-H)) (Pt.mk W H)).p0).Unit = Vec.mk 0 1 := by
    rw [hd]
    unfold Vec.Unit
    rw [Vec.magnitude_eval (m := 2 * H) (by linarith)
      (by simp only [Vec.SquaredMagnitude]; ring)]
    simp only [Vec.mk.injEq]
    exact ⟨zero_div _, div_self (by linarith)⟩
  have hdot : (((Segment.mk (Pt.mk W (-H)) (Pt.mk W H)).p1.Minus
      (Segment.mk (Pt.mk W (-H)) (Pt.mk W H)).p0).Unit).Dot
      ((Pt.mk W 0).Minus (Segment.mk (Pt.mk W (-H)) (Pt.mk W H)).p0) = H := by
    rw [hu]
    simp only [Vec.Dot, Pt.Minus]
    ring
  rw [nearestPoint_mid (by rw [hdot]; linarith) (by
    rw [hdot, hd, Vec.magnitude_eval (m := 2 * H) (by linarith)
      (by simp only [Vec.SquaredMagnitude]; ring)]
    linarith)]
  rw [hdot, hu]
  simp only [Pt.Plus, Vec.ScaledBy, Pt.mk.injEq]
  constructor <;> ring

lemma headon_sphere {R V W : ℝ} (hR : 0 ≤ R) (hV : 0 < V) :
    Ray.SphereIntersection ⟨⟨W, 0⟩, (Vec.mk V 0).Inverse.Unit⟩ ⟨⟨0, 0⟩, R⟩ =
      some (W - R) := by
  rw [inv_unit_pos_x hV]
  rw [sphereIntersection_eval (D := R * R) (by
    simp only [Pt.Minus, Vec.Dot, Vec.SquaredMagnitude]
    ring) (by nlinarith)]
  rw [sqrtEval hR rfl]
  simp only [Pt.Minus, Vec.Dot, Option.some.injEq]
  ring

lemma headon_segHit {R V W H : ℝ} (hR : 0 ≤ R) (hV : 0 < V) (hRW : R < W)
    (hWRV : W - R ≤ V) (hH : 0 < H) :
    circleSegmentHit ⟨⟨0, 0⟩, R⟩ ⟨V, 0⟩ (Segment.mk ⟨W, -H⟩ ⟨W, H⟩) =
      some (W - R, ⟨W, 0⟩) := by
  have h := circleSegmentHit_eval (headon_planeHit hR hV hRW hH)
    (by rw [headon_nearest hH]; exact headon_sphere hR hV)
    (by linarith) (by rw [mag_pos_x (le_of_lt hV)]; linarith)
  rw [h, headon_nearest hH]

lemma headon_move1 {R V W H : ℝ} (hR : 0 < R) (hV : 0 < V) (hRW : R < W)
    (hWRV : W - R ≤ V) (hH : 0 < H) :
    moveCircle1 ⟨⟨0, 0⟩, R⟩ ⟨V, 0⟩ [Segment.mk ⟨W, -H⟩ ⟨W, H⟩] =
      some ⟨(W - R) - Threshold, ⟨0, 0⟩, true, ⟨W, 0⟩⟩ := by
  have hb : bestHit ⟨⟨0, 0⟩, R⟩ ⟨V, 0⟩ [Segment.mk ⟨W, -H⟩ ⟨W, H⟩] =
      some (W - R, ⟨W, 0⟩) := by
    rw [bestHit_singleton, headon_segHit (le_of_lt hR) hV hRW hWRV hH]
  have hc : (Sphere.mk (Pt.mk 0 0) R).center.Plus
      ((Vec.mk V 0).Unit.ScaledBy (W - R)) = Pt.mk (W - R) 0 := by
    rw [unit_pos_x hV]
    simp only [Pt.Plus, Vec.ScaledBy, Pt.mk.injEq]
    constructor <;> ring
  have hn : ((Pt.mk W 0).Minus ((Sphere.mk (Pt.mk 0 0) R).center.Plus
      ((Vec.mk V 0).Unit.ScaledBy (W - R)))).Unit = Vec.mk 1 0 := by
    rw [hc]
    rw [show ((Pt.mk W 0).Minus (Pt.mk (W - R) 0)) = Vec.mk R 0 by
      simp only [Pt.Minus, Vec.mk.injEq]
      constructor <;> ring]
    exact unit_pos_x hR
  have hdest : (Pt.mk W 0).Plus ((Vec.mk V 0).Unit.ScaledBy
      ((Vec.mk V 0).Magnitude - (W - R))) = Pt.mk (W + (V - (W - R))) 0 := by
    rw [unit_pos_x hV, mag_pos_x (le_of_lt hV)]
    simp only [Pt.Plus, Vec.ScaledBy, Pt.mk.injEq]
    constructor <;> ring
  have hpi : Ray.PlaneIntersection ⟨⟨W + (V - (W - R)), 0⟩, ⟨1, 0⟩⟩
      ⟨⟨W, 0⟩, ⟨1, 0⟩⟩ = some (W - (W + (V - (W - R)))) := by
    rw [planeIntersection_eval (not_f64eq_zero_pos (by
      norm_num [Vec.Dot, Threshold]))]
    simp only [Vec.Dot, Pt.toVec, Option.some.injEq]
    ring
  rw [moveCircle1_hit hb hn hdest hpi]
  rw [show (Vec.mk 1 0).Unit = Vec.mk 1 0 from unit_oneZero]
  simp only [Pt.Plus, Pt.Minus, Vec.ScaledBy, Option.some.injEq, Move.mk.injEq,
    Vec.mk.injEq]
  exact ⟨trivial, ⟨by ring, by ring⟩, trivial, trivial⟩

lemma headon_loop {R V W H : ℝ} (hR : 0 < R) (hV : Threshold ≤ V) (hRW : R < W)
    (hWRV : W - R ≤ V) (hH : 0 < H) :
    MoveCircleFuel 2 ⟨⟨0, 0⟩, R⟩ ⟨V, 0⟩ [Segment.mk ⟨W, -H⟩ ⟨W, H⟩] =
      some (⟨⟨(W - R) - Threshold, 0⟩, R⟩, false) := by
  have hVpos : 0 < V := lt_of_lt_of_le threshold_pos hV
  have hnz : ¬ (Vec.mk V 0).NearZero := Vec.not_nearZero_of_big_x (Or.inl hV)
  have hmv := headon_move1 hR hVpos hRW hWRV hH
  have hrec : MoveCircleFuel 1
      ⟨(Sphere.mk (Pt.mk 0 0) R).center.Plus ((Vec.mk V 0).Unit.ScaledBy
        (Move.mk ((W - R) - Threshold) ⟨0, 0⟩ true ⟨W, 0⟩).distance),
        (Sphere.mk (Pt.mk 0 0) R).radius⟩
      (Move.mk ((W - R) - Threshold) ⟨0, 0⟩ true ⟨W, 0⟩).newVelocity
      [Segment.mk ⟨W, -H⟩ ⟨W, H⟩] =
      some (⟨(Sphere.mk (Pt.mk 0 0) R).center.Plus ((Vec.mk V 0).Unit.ScaledBy
        (Move.mk ((W - R) - Threshold) ⟨0, 0⟩ true ⟨W, 0⟩).distance),
        (Sphere.mk (Pt.mk 0 0) R).radius⟩, false) :=
    moveCircleFuel_done Vec.nearZero_zero
  rw [moveCircleFuel_step hnz hmv hrec]
  rw [unit_pos_x hVpos]
  have hb : decide ((Vec.mk V 0).y < 0) = false := by
    apply decide_eq_false
    simp only [Vec.mk]
    exact not_lt.mpr le_rfl
  rw [hb]
  simp only [Bool.false_and, Bool.false_or, Bool.or_false]
  simp only [Pt.Plus, Vec.ScaledBy, Option.some.injEq, Prod.mk.injEq,
    Sphere.mk.injEq, Pt.mk.injEq]
  exact ⟨⟨⟨by ring, by ring⟩, trivial⟩, trivial⟩

end Quart

namespace Quart

/-! Claim C6: ellipse/circle equivalence. -/

lemma c6_scaled_loop :
    MoveCircleFuel 2 ⟨⟨0, 0⟩, 1⟩ ⟨10 / 3, 0⟩ [Segment.mk ⟨5 / 3, -(10 / 3)⟩ ⟨5 / 3, 10 / 3⟩] =
      some (⟨⟨(5 / 3 - 1) - Threshold, 0⟩, 1⟩, false) :=
  headon_loop (by norm_num) (by norm_num [Threshold]) (by norm_num) (by norm_num)
    (by norm_num)

lemma c6_direct_loop :
    MoveCircleFuel 2 ⟨⟨0, 0⟩, 3⟩ ⟨10, 0⟩ [Segment.mk ⟨5, -10⟩ ⟨5, 10⟩] =
      some (⟨⟨(5 - 3) - Threshold, 0⟩, 3⟩, false) :=
  headon_loop (by norm_num) (by norm_num [Threshold]) (by norm_num) (by norm_num)
    (by norm_num)

lemma c6_ellipse_run :
    MoveEllipse 2 ⟨⟨0, 0⟩, ⟨3, 3⟩⟩ ⟨10, 0⟩ [wallSeg] =
      some (⟨⟨(5 / 3 - 1 - Threshold) * 3, 0⟩, ⟨3, 3⟩⟩, false) := by
  simp only [MoveEllipse, wallSeg, List.map]
  rw [show (Pt.mk 0 0).Times ⟨1 / (Vec.mk 3 3).x, 1 / (Vec.mk 3 3).y⟩ = Pt.mk 0 0 by
    simp only [Pt.Times, Pt.mk.injEq]; norm_num]
  rw [show (Vec.mk 10 0).Times ⟨1 / (Vec.mk 3 3).x, 1 / (Vec.mk 3 3).y⟩ =
      Vec.mk (10 / 3) 0 by
    simp only [Vec.Times, Vec.mk.injEq]; norm_num]
  rw [show (Pt.mk 5 (-10)).Times ⟨1 / (Vec.mk 3 3).x, 1 / (Vec.mk 3 3).y⟩ =
      Pt.mk (5 / 3) (-(10 / 3)) by
    simp only [Pt.Times, Pt.mk.injEq]; norm_num]
  rw [show (Pt.mk 5 10).Times ⟨1 / (Vec.mk 3 3).x, 1 / (Vec.mk 3 3).y⟩ =
      Pt.mk (5 / 3) (10 / 3) by
    simp only [Pt.Times, Pt.mk.injEq]; norm_num]
  rw [c6_scaled_loop]
  simp only [Pt.Times, Option.some.injEq, Prod.mk.injEq, Ellipse.mk.injEq, Pt.mk.injEq]
  norm_num

/-- C6 counterexample: with isotropic radii (3,3), velocity (10,0), and the
vertical wall, MoveEllipse stops with center x = 2 - 3*Threshold while
MoveCircle with radius 3 stops at x = 2 - Threshold: the centers differ by
2*Threshold, which is not within the Threshold epsilon.  The epsilon
pull-back happens in scaled space, so it is re-scaled by the radius. -/
theorem c6_counterexample :
    MoveEllipse 2 ⟨⟨0, 0⟩, ⟨3, 3⟩⟩ ⟨10, 0⟩ [wallSeg] =
        some (⟨⟨(5 / 3 - 1 - Threshold) * 3, 0⟩, ⟨3, 3⟩⟩, false) ∧
      MoveCircleFuel 2 ⟨⟨0, 0⟩, 3⟩ ⟨10, 0⟩ [wallSeg] =
        some (⟨⟨2 - Threshold, 0⟩, 3⟩, false) ∧
      ¬ ((Pt.mk ((5 / 3 - 1 - Threshold) * 3) 0).Distance ⟨2 - Threshold, 0⟩ ≤
          Threshold) := by
  refine ⟨c6_ellipse_run, ?_, ?_⟩
  · rw [show wallSeg = Segment.mk ⟨5, -10⟩ ⟨5, 10⟩ from rfl, c6_direct_loop]
    norm_num
  · have hT := threshold_pos
    have hd : (Pt.mk ((5 / 3 - 1 - Threshold) * 3) 0).Distance ⟨2 - Threshold, 0⟩ =
        2 * Threshold := by
      unfold Pt.Distance Pt.SquaredDistance
      apply sqrtEval (by linarith)
      simp only [Pt.mk]
      ring
    rw [hd]
    linarith

/-- C6 (amended): for unit radii the adapter is exact: MoveEllipse with radii
(1, 1) returns exactly the center and ground flag of MoveCircle with radius 1
on the same inputs.  For isotropic radii r different from 1 the centers can
differ by more than Threshold (see the counterexample at r = 3), because the
Threshold pull-back is applied in the scaled space and is re-scaled by r. -/
theorem c6_isotropic_unit_exact (fuel : ℕ) (p : Pt) (v : Vec)
    (segs : List Segment) (out : Circle × Bool)
    (h : MoveCircleFuel fuel ⟨p, 1⟩ v segs = some out) :
    MoveEllipse fuel ⟨p, ⟨1, 1⟩⟩ v segs = some (⟨out.1.center, ⟨1, 1⟩⟩, out.2) := by
  obtain ⟨c2, og⟩ := out
  have hpt : ∀ q : Pt, q.Times ⟨1 / 1, 1 / 1⟩ = q := by
    intro q
    cases q
    simp only [Pt.Times, Pt.mk.injEq]
    norm_num
  have hpt1 : ∀ q : Pt, q.Times (Vec.mk 1 1) = q := by
    intro q
    cases q
    simp only [Pt.Times, Pt.mk.injEq]
    norm_num
  have hvt : v.Times ⟨1 / 1, 1 / 1⟩ = v := by
    cases v
    simp only [Vec.Times, Vec.mk.injEq]
    norm_num
  have hsegs : ∀ l : List Segment, l.map (fun s => Segment.mk
      (s.p0.Times ⟨1 / 1, 1 / 1⟩) (s.p1.Times ⟨1 / 1, 1 / 1⟩)) = l := by
    intro l
    induction l with
    | nil => rfl
    | cons s t ih =>
      simp only [List.map_cons, List.cons.injEq]
      refine ⟨?_, ih⟩
      cases s
      simp only [Segment.mk.injEq]
      exact ⟨hpt _, hpt _⟩
  simp only [MoveEllipse]
  rw [hpt p, hvt, hsegs segs, h]
  simp only [hpt1]

end Quart

namespace Quart

/-- C6 witness: the amended exactness statement instantiated on the radius-1
wall scenario: MoveEllipse with radii (1,1) lands exactly on the MoveCircle
center (4 - Threshold, 0). -/
theorem c6_witness :
    MoveEllipse 2 ⟨⟨0, 0⟩, ⟨1, 1⟩⟩ ⟨10, 0⟩ [wallSeg] =
      some (⟨⟨4 - Threshold, 0⟩, ⟨1, 1⟩⟩, false) := by
  have h : MoveCircleFuel 2 ⟨⟨0, 0⟩, 1⟩ ⟨10, 0⟩ [wallSeg] =
      some (⟨⟨4 - Threshold, 0⟩, 1⟩, false) := by
    rw [show wallSeg = Segment.mk ⟨5, -10⟩ ⟨5, 10⟩ from rfl]
    rw [headon_loop (by norm_num) (by norm_num [Threshold]) (by norm_num)
      (by norm_num) (by norm_num)]
    norm_num
  exact c6_isotropic_unit_exact 2 ⟨0, 0⟩ ⟨10, 0⟩ [wallSeg]
    (⟨⟨4 - Threshold, 0⟩, 1⟩, false) h

end Quart

namespace Quart

/-! Claims C10 and C8: reachability of the slide-projection abort. -/

lemma dot_self_eq_squaredMagnitude (v : Vec) : v.Dot v = v.SquaredMagnitude := rfl

/-- C10: the panic branch of moveCircle1 is unreachable whenever the slide
plane's normal is a unit vector: the projection ray's direction is the slide
plane's own normal, so the ray-plane denominator is 1, which is not within
Threshold of 0, and the intersection always succeeds. -/
theorem c10_abort_unreachable_for_unit_normal (c : Circle) (v : Vec)
    (segs : List Segment) (dist : ℝ) (hitPt : Pt)
    (hb : bestHit c v segs = some (dist, hitPt))
    (hn : ((hitPt.Minus (c.center.Plus (v.Unit.ScaledBy dist))).Unit).Magnitude = 1) :
    (moveCircle1 c v segs).isSome = true := by
  have hsq : ((hitPt.Minus (c.center.Plus (v.Unit.ScaledBy dist))).Unit).SquaredMagnitude
      = 1 := by
    rw [← Vec.magnitude_mul_self, hn]
    norm_num
  have hpi := planeIntersection_eval
    (r := ⟨hitPt.Plus (v.Unit.ScaledBy (v.Magnitude - dist)),
           (hitPt.Minus (c.center.Plus (v.Unit.ScaledBy dist))).Unit⟩)
    (p := ⟨hitPt, (hitPt.Minus (c.center.Plus (v.Unit.ScaledBy dist))).Unit⟩)
    (by
      show ¬ Float64Equals (((hitPt.Minus (c.center.Plus
        (v.Unit.ScaledBy dist))).Unit).Dot ((hitPt.Minus (c.center.Plus
        (v.Unit.ScaledBy dist))).Unit)) 0
      rw [dot_self_eq_squaredMagnitude, hsq]
      apply not_f64eq_zero_pos
      have := threshold_lt_half
      linarith)
  simp only [moveCircle1, hb, hpi, Option.isSome_some]

/-- C10 witness: in the radius-1 wall scenario the selected hit is at
distance 4 with contact point (5,0); the slide normal there is the unit
vector (1,0), so moveCircle1 succeeds. -/
theorem c10_witness : (moveCircle1 circleO ⟨10, 0⟩ [wallSeg]).isSome = true := by
  apply c10_abort_unreachable_for_unit_normal circleO ⟨10, 0⟩ [wallSeg] 4 ⟨5, 0⟩
  · rw [bestHit_singleton, c2_segHit]
  · rw [unit_ten]
    rw [show (circleO.center.Plus ((Vec.mk 1 0).ScaledBy 4)) = Pt.mk 4 0 by
      norm_num [circleO, Pt.Plus, Vec.ScaledBy]]
    rw [show ((Pt.mk 5 0).Minus (Pt.mk 4 0)) = Vec.mk 1 0 by norm_num [Pt.Minus]]
    rw [unit_oneZero]
    exact mag_one

end Quart

namespace Quart

/-- C8: the only abort of moveCircle1 is the slide-projection failure, and it
propagates: moveCircle1 returns none exactly when a nearest hit was selected
and the projection ray from the unobstructed destination along the slide
plane's normal fails to intersect the slide plane; in that case the MoveCircle
loop also aborts immediately, so callers see either a valid result or the
abort, never a partial one. -/
theorem c8_abort_iff_projection_failure (c : Circle) (v : Vec)
    (segs : List Segment) :
    (moveCircle1 c v segs = none ↔
      ∃ dist hitPt, bestHit c v segs = some (dist, hitPt) ∧
        Ray.PlaneIntersection
          ⟨hitPt.Plus (v.Unit.ScaledBy (v.Magnitude - dist)),
            (hitPt.Minus (c.center.Plus (v.Unit.ScaledBy dist))).Unit⟩
          ⟨hitPt, (hitPt.Minus (c.center.Plus (v.Unit.ScaledBy dist))).Unit⟩ =
          none) ∧
    (∀ n : ℕ, ¬ v.NearZero → moveCircle1 c v segs = none →
      MoveCircleFuel (n + 1) c v segs = none) := by
  constructor
  · cases hb : bestHit c v segs with
    | none =>
      rw [moveCircle1_miss hb]
      constructor
      · intro h
        exact absurd h (by simp)
      · rintro ⟨dist, hitPt, hb2, -⟩
        exact absurd hb2 (by simp)
    | some dp =>
      obtain ⟨dist, hitPt⟩ := dp
      cases hpi : Ray.PlaneIntersection
          ⟨hitPt.Plus (v.Unit.ScaledBy (v.Magnitude - dist)),
            (hitPt.Minus (c.center.Plus (v.Unit.ScaledBy dist))).Unit⟩
          ⟨hitPt, (hitPt.Minus (c.center.Plus (v.Unit.ScaledBy dist))).Unit⟩ with
      | none =>
        constructor
        · intro _
          exact ⟨dist, hitPt, rfl, hpi⟩
        · intro _
          simp only [moveCircle1, hb, hpi]
      | some d =>
        constructor
        · intro h
          simp only [moveCircle1, hb, hpi] at h
          exact absurd h (by simp)
        · rintro ⟨dist2, hitPt2, hb2, hpi2⟩
          simp only [Option.some.injEq, Prod.mk.injEq] at hb2
          obtain ⟨h1, h2⟩ := hb2
          subst h1
          subst h2
          rw [hpi] at hpi2
          exact absurd hpi2 (by simp)
  · intro n hnz h
    rw [MoveCircleFuel]
    rw [if_neg hnz]
    simp only [h]

lemma c8_scene_move1_none : moveCircle1 ⟨⟨0, 0⟩, 0⟩ ⟨10, 0⟩ [wallSeg] = none := by
  have hb : bestHit ⟨⟨0, 0⟩, 0⟩ ⟨10, 0⟩ [wallSeg] = some (5 - 0, ⟨5, 0⟩) := by
    rw [show wallSeg = Segment.mk ⟨5, -10⟩ ⟨5, 10⟩ from rfl]
    rw [bestHit_singleton]
    exact headon_segHit (by norm_num) (by norm_num) (by norm_num) (by norm_num)
      (by norm_num)
  have hc : (Sphere.mk (Pt.mk 0 0) 0).center.Plus
      ((Vec.mk 10 0).Unit.ScaledBy (5 - 0)) = Pt.mk 5 0 := by
    rw [unit_ten]
    norm_num [Pt.Plus, Vec.ScaledBy]
  have hzero : ((Pt.mk 5 0).Minus ((Sphere.mk (Pt.mk 0 0) 0).center.Plus
      ((Vec.mk 10 0).Unit.ScaledBy (5 - 0)))).Unit = Vec.mk 0 0 := by
    rw [hc]
    rw [show ((Pt.mk 5 0).Minus (Pt.mk 5 0)) = Vec.mk 0 0 by norm_num [Pt.Minus]]
    unfold Vec.Unit
    norm_num
  have hpi : Ray.PlaneIntersection
      ⟨(Pt.mk 5 0).Plus ((Vec.mk 10 0).Unit.ScaledBy ((Vec.mk 10 0).Magnitude - (5 - 0))),
        ((Pt.mk 5 0).Minus ((Sphere.mk (Pt.mk 0 0) 0).center.Plus
          ((Vec.mk 10 0).Unit.ScaledBy (5 - 0)))).Unit⟩
      ⟨⟨5, 0⟩, ((Pt.mk 5 0).Minus ((Sphere.mk (Pt.mk 0 0) 0).center.Plus
          ((Vec.mk 10 0).Unit.ScaledBy (5 - 0)))).Unit⟩ = none := by
    apply planeIntersection_none
    rw [show (Ray.mk ((Pt.mk 5 0).Plus ((Vec.mk 10 0).Unit.ScaledBy
        ((Vec.mk 10 0).Magnitude - (5 - 0))))
        (((Pt.mk 5 0).Minus ((Sphere.mk (Pt.mk 0 0) 0).center.Plus
          ((Vec.mk 10 0).Unit.ScaledBy (5 - 0)))).Unit)).direction =
        ((Pt.mk 5 0).Minus ((Sphere.mk (Pt.mk 0 0) 0).center.Plus
          ((Vec.mk 10 0).Unit.ScaledBy (5 - 0)))).Unit from rfl]
    rw [hzero]
    show Float64Equals ((Vec.mk 0 0).Dot (Vec.mk 0 0)) 0
    rw [show (Vec.mk 0 0).Dot (Vec.mk 0 0) = 0 by simp [Vec.Dot]]
    exact f64eq_zero_self
  exact ((c8_abort_iff_projection_failure _ _ _).1).mpr ⟨5 - 0, ⟨5, 0⟩, hb, hpi⟩

/-- C8 witness: with a degenerate radius-0 circle against the wall, the slide
plane's normal collapses to the zero vector, the projection fails, and both
moveCircle1 and the MoveCircle loop abort with none. -/
theorem c8_witness :
    moveCircle1 ⟨⟨0, 0⟩, 0⟩ ⟨10, 0⟩ [wallSeg] = none ∧
      MoveCircleFuel 1 ⟨⟨0, 0⟩, 0⟩ ⟨10, 0⟩ [wallSeg] = none := by
  refine ⟨c8_scene_move1_none, ?_⟩
  exact (c8_abort_iff_projection_failure ⟨⟨0, 0⟩, 0⟩ ⟨10, 0⟩ [wallSeg]).2 0
    (Vec.not_nearZero_of_big_x (Or.inl (by norm_num [Threshold])))
    c8_scene_move1_none

end Quart

namespace Quart

/-! Claim C9: classification of ground contacts and the onGround flag. -/

/-- Ground-contact classification of one MoveCircle iteration, mirroring the
loop body of phys.MoveCircle: the incoming velocity points downward, the
resolver reported a hit, and the contact point's height is below the cutoff
obtained by applying the bottom factor to the advanced circle's lower
extent (center y minus radius times (1 - bottomFactor * 2)). -/
def groundHit (v : Vec) (c' : Circle) (mv : Move) : Prop :=
  v.y < 0 ∧ mv.hit = true ∧
    mv.hitPoint.y < c'.center.y - c'.radius * (1 - bottomFactor * 2)

/-- Iteration trace of the MoveCircle loop: for each iteration, the incoming
velocity, the circle after advancing by the returned distance, and the
returned move.  none models fuel exhaustion or the moveCircle1 panic,
exactly as in MoveCircleFuel. -/
def MoveCircleIters :
    ℕ → Circle → Vec → List Segment → Option (List (Vec × Circle × Move))
  | 0, _, v, _ => if v.NearZero then some [] else none
  | n + 1, c, v, segs =>
    if v.NearZero then some []
    else
      match moveCircle1 c v segs with
      | none => none
      | some mv =>
        let c' : Circle := ⟨c.center.Plus (v.Unit.ScaledBy mv.distance), c.radius⟩
        match MoveCircleIters n c' mv.newVelocity segs with
        | none => none
        | some rest => some ((v, c', mv) :: rest)

lemma moveCircleIters_done {n : ℕ} {c : Circle} {v : Vec} {segs : List Segment}
    (h : v.NearZero) : MoveCircleIters n c v segs = some [] := by
  cases n <;> · unfold MoveCircleIters; rw [if_pos h]

lemma moveCircleIters_step {n : ℕ} {c : Circle} {v : Vec} {segs : List Segment}
    {mv : Move} {rest : List (Vec × Circle × Move)}
    (hnz : ¬ v.NearZero) (h1 : moveCircle1 c v segs = some mv)
    (hrec : MoveCircleIters n ⟨c.center.Plus (v.Unit.ScaledBy mv.distance), c.radius⟩
        mv.newVelocity segs = some rest) :
    MoveCircleIters (n + 1) c v segs =
      some ((v, ⟨c.center.Plus (v.Unit.ScaledBy mv.distance), c.radius⟩, mv) :: rest) := by
  rw [MoveCircleIters]
  rw [if_neg hnz]
  simp only [h1, hrec]

/-- C9: the onGround flag returned by the MoveCircle loop is true exactly
when some iteration of the call produced a ground contact: a hit with
downward incoming velocity whose contact point lies below the bottom-factor
cutoff of the circle's lower extent. -/
theorem c9_onGround_iff_ground_iteration (n : ℕ) (c : Circle) (v : Vec)
    (segs : List Segment) (out : Circle × Bool)
    (iters : List (Vec × Circle × Move))
    (hout : MoveCircleFuel n c v segs = some out)
    (hiters : MoveCircleIters n c v segs = some iters) :
    out.2 = true ↔ ∃ it ∈ iters, groundHit it.1 it.2.1 it.2.2 := by
  induction n generalizing c v out iters with
  | zero =>
    unfold MoveCircleFuel at hout
    unfold MoveCircleIters at hiters
    by_cases hz : v.NearZero
    · rw [if_pos hz] at hout hiters
      obtain ⟨rfl⟩ : out = (c, false) := by
        injection hout with h
        exact h ▸ rfl
      obtain rfl : iters = ([] : List (Vec × Circle × Move)) := by
        injection hiters with h
        exact h.symm
      simp
    · rw [if_neg hz] at hout
      exact absurd hout (by simp)
  | succ m ih =>
    rw [MoveCircleFuel] at hout
    rw [MoveCircleIters] at hiters
    by_cases hz : v.NearZero
    · rw [if_pos hz] at hout hiters
      obtain ⟨rfl⟩ : out = (c, false) := by
        injection hout with h
        exact h ▸ rfl
      obtain rfl : iters = ([] : List (Vec × Circle × Move)) := by
        injection hiters with h
        exact h.symm
      simp
    · rw [if_neg hz] at hout hiters
      cases hmv : moveCircle1 c v segs with
      | none =>
        rw [hmv] at hout
        exact absurd hout (by simp)
      | some mv =>
        rw [hmv] at hout hiters
        simp only at hout hiters
        cases hrec : MoveCircleFuel m
            ⟨c.center.Plus (v.Unit.ScaledBy mv.distance), c.radius⟩
            mv.newVelocity segs with
        | none =>
          rw [hrec] at hout
          exact absurd hout (by simp)
        | some out' =>
          rw [hrec] at hout
          cases hirec : MoveCircleIters m
              ⟨c.center.Plus (v.Unit.ScaledBy mv.distance), c.radius⟩
              mv.newVelocity segs with
          | none =>
            rw [hirec] at hiters
            exact absurd hiters (by simp)
          | some rest =>
            rw [hirec] at hiters
            obtain rfl : ((v, (⟨c.center.Plus (v.Unit.ScaledBy mv.distance),
                c.radius⟩ : Circle), mv) :: rest) = iters := by
              injection hiters
            obtain rfl : out = (out'.1,
                (decide (v.y < 0) && mv.hit &&
                  decide (mv.hitPoint.y <
                    (c.center.Plus (v.Unit.ScaledBy mv.distance)).y -
                      c.radius * (1 - bottomFactor * 2))) || out'.2) := by
              injection hout with h
              exact h ▸ rfl
            have hih := ih _ _ _ _ hrec hirec
            simp only [Bool.or_eq_true, Bool.and_eq_true, decide_eq_true_eq]
            rw [hih]
            constructor
            · rintro (⟨⟨h1, h2⟩, h3⟩ | ⟨it, hmem, hg⟩)
              · exact ⟨_, List.mem_cons_self _ _, h1, h2, h3⟩
              · exact ⟨it, List.mem_cons_of_mem _ hmem, hg⟩
            · rintro ⟨it, hmem, hg⟩
              rcases List.mem_cons.mp hmem with rfl | hmem2
              · exact Or.inl ⟨⟨hg.1, hg.2.1⟩, hg.2.2⟩
              · exact Or.inr ⟨it, hmem2, hg⟩

end Quart

namespace Quart

/-- C9 witness: in the radius-1 wall scenario the single iteration has level
incoming velocity (y-component 0), so the iteration is not a ground contact
and the returned flag is false. -/
theorem c9_witness :
    MoveCircleFuel 2 circleO ⟨10, 0⟩ [wallSeg] =
        some (⟨⟨4 - Threshold, 0⟩, 1⟩, false) ∧
      MoveCircleIters 2 circleO ⟨10, 0⟩ [wallSeg] =
        some [(⟨10, 0⟩, ⟨⟨4 - Threshold, 0⟩, 1⟩,
          ⟨4 - Threshold, ⟨0, 0⟩, true, ⟨5, 0⟩⟩)] ∧
      ¬ ∃ it ∈ [((⟨10, 0⟩ : Vec), (⟨⟨4 - Threshold, 0⟩, 1⟩ : Circle),
          (⟨4 - Threshold, ⟨0, 0⟩, true, ⟨5, 0⟩⟩ : Move))],
        groundHit it.1 it.2.1 it.2.2 := by
  have hout : MoveCircleFuel 2 circleO ⟨10, 0⟩ [wallSeg] =
      some (⟨⟨4 - Threshold, 0⟩, 1⟩, false) := by
    rw [show circleO = Sphere.mk ⟨0, 0⟩ 1 from rfl,
      show wallSeg = Segment.mk ⟨5, -10⟩ ⟨5, 10⟩ from rfl]
    rw [headon_loop (by norm_num) (by norm_num [Threshold]) (by norm_num)
      (by norm_num) (by norm_num)]
    norm_num
  have hmv : moveCircle1 circleO ⟨10, 0⟩ [wallSeg] =
      some ⟨4 - Threshold, ⟨0, 0⟩, true, ⟨5, 0⟩⟩ := c2_move1
  have hc' : (circleO.center.Plus ((Vec.mk 10 0).Unit.ScaledBy
      (Move.mk (4 - Threshold) ⟨0, 0⟩ true ⟨5, 0⟩).distance)) = Pt.mk (4 - Threshold) 0 := by
    rw [unit_ten]
    norm_num [circleO, Pt.Plus, Vec.ScaledBy]
  have hiters : MoveCircleIters 2 circleO ⟨10, 0⟩ [wallSeg] =
      some [(⟨10, 0⟩, ⟨⟨4 - Threshold, 0⟩, 1⟩,
        ⟨4 - Threshold, ⟨0, 0⟩, true, ⟨5, 0⟩⟩)] := by
    have hnz : ¬ (Vec.mk 10 0).NearZero :=
      Vec.not_nearZero_of_big_x (Or.inl (by norm_num [Threshold]))
    have hrec : MoveCircleIters 1
        ⟨circleO.center.Plus ((Vec.mk 10 0).Unit.ScaledBy
          (Move.mk (4 - Threshold) ⟨0, 0⟩ true ⟨5, 0⟩).distance), circleO.radius⟩
        (Move.mk (4 - Threshold) ⟨0, 0⟩ true ⟨5, 0⟩).newVelocity [wallSeg] =
        some [] := moveCircleIters_done Vec.nearZero_zero
    rw [moveCircleIters_step hnz hmv hrec]
    rw [hc']
    rfl
  refine ⟨hout, hiters, fun hex => ?_⟩
  have hiff := c9_onGround_iff_ground_iteration 2 circleO ⟨10, 0⟩ [wallSeg]
    (⟨⟨4 - Threshold, 0⟩, 1⟩, false)
    [(⟨10, 0⟩, ⟨⟨4 - Threshold, 0⟩, 1⟩, ⟨4 - Threshold, ⟨0, 0⟩, true, ⟨5, 0⟩⟩)]
    hout hiters
  have := hiff.mpr hex
  simp at this

end Quart

namespace Quart

/-! Inversion lemmas: destructure the model's operations from a known
result, recovering the branch conditions that must have held. -/

lemma planeIntersection_inv {r : Ray} {p : Plane} {d : ℝ}
    (h : r.PlaneIntersection p = some d) :
    ¬ Float64Equals (r.direction.Dot p.normal) 0 ∧
      d = -(p.normal.Dot r.origin.toVec + -(p.normal.Dot p.origin.toVec)) /
            (r.direction.Dot p.normal) := by
  simp only [Ray.PlaneIntersection] at h
  split at h
  · exact absurd h (by simp)
  · next hc =>
    injection h with he
    exact ⟨hc, he.symm⟩

lemma sphereIntersection_inv {r : Ray} {s : Sphere} {d : ℝ}
    (h : r.SphereIntersection s = some d) :
    0 ≤ s.radius * s.radius -
        ((s.center.Minus r.origin).SquaredMagnitude -
          (s.center.Minus r.origin).Dot r.direction *
            (s.center.Minus r.origin).Dot r.direction) ∧
      d = (s.center.Minus r.origin).Dot r.direction -
            Real.sqrt (s.radius * s.radius -
              ((s.center.Minus r.origin).SquaredMagnitude -
                (s.center.Minus r.origin).Dot r.direction *
                  (s.center.Minus r.origin).Dot r.direction)) := by
  simp only [Ray.SphereIntersection] at h
  rw [Vec.magnitude_mul_self] at h
  split at h
  · exact absurd h (by simp)
  · next hc =>
    injection h with he
    exact ⟨not_lt.mp hc, he.symm⟩

lemma circleSegmentHit_inv {c : Circle} {v : Vec} {s : Segment} {d : ℝ} {p : Pt}
    (h : circleSegmentHit c v s = some (d, p)) :
    ∃ ph, circlePlaneHit c v s.Line = some ph ∧ p = s.NearestPoint ph ∧
      Ray.SphereIntersection ⟨p, v.Inverse.Unit⟩ c = some d ∧
      0 ≤ d ∧ d ≤ v.Magnitude := by
  simp only [circleSegmentHit] at h
  cases hph : circlePlaneHit c v s.Line with
  | none => rw [hph] at h; exact absurd h (by simp)
  | some ph =>
    rw [hph] at h
    simp only at h
    cases hsp : Ray.SphereIntersection ⟨s.NearestPoint ph, v.Inverse.Unit⟩ c with
    | none => rw [hsp] at h; exact absurd h (by simp)
    | some d2 =>
      rw [hsp] at h
      simp only at h
      split at h
      · exact absurd h (by simp)
      · next hc =>
        rw [not_or] at hc
        injection h with he
        injection he with he1 he2
        subst he1
        subst he2
        exact ⟨ph, rfl, rfl, hsp, not_lt.mp hc.1, not_lt.mp hc.2⟩

lemma bestHitStep_spec {c : Circle} {v : Vec} {acc : Option (ℝ × Pt)}
    {s : Segment} {out : ℝ × Pt}
    (h : bestHitStep c v acc s = some out) :
    acc = some out ∨ circleSegmentHit c v s = some out := by
  simp only [bestHitStep] at h
  cases hcs : circleSegmentHit c v s with
  | none => rw [hcs] at h; exact Or.inl h
  | some dp =>
    obtain ⟨d, pt⟩ := dp
    rw [hcs] at h
    cases acc with
    | none =>
      simp only at h
      exact Or.inr h
    | some acc0 =>
      obtain ⟨d0, pt0⟩ := acc0
      simp only at h
      split at h
      · exact Or.inr h
      · exact Or.inl h

lemma bestHit_spec {c : Circle} {v : Vec} {segs : List Segment} {out : ℝ × Pt}
    (h : bestHit c v segs = some out) :
    ∃ s ∈ segs, circleSegmentHit c v s = some out := by
  unfold bestHit at h
  suffices haux : ∀ (l : List Segment) (acc : Option (ℝ × Pt)),
      l.foldl (bestHitStep c v) acc = some out →
      acc = some out ∨ ∃ s ∈ l, circleSegmentHit c v s = some out by
    rcases haux segs none h with hacc | hex
    · exact absurd hacc (by simp)
    · exact hex
  intro l
  induction l with
  | nil =>
    intro acc hacc
    exact Or.inl hacc
  | cons s t ih =>
    intro acc hacc
    rw [List.foldl_cons] at hacc
    rcases ih _ hacc with hstep | ⟨s2, hs2, hcs⟩
    · rcases bestHitStep_spec hstep with hacc2 | hcs
      · exact Or.inl hacc2
      · exact Or.inr ⟨s, List.mem_cons_self s t, hcs⟩
    · exact Or.inr ⟨s2, List.mem_cons_of_mem _ hs2, hcs⟩

lemma moveCircle1_inv {c : Circle} {v : Vec} {segs : List Segment} {mv : Move}
    (h : moveCircle1 c v segs = some mv) (hhit : mv.hit = true) :
    ∃ dist hitPt pd,
      bestHit c v segs = some (dist, hitPt) ∧
      Ray.PlaneIntersection
        ⟨hitPt.Plus (v.Unit.ScaledBy (v.Magnitude - dist)),
          (hitPt.Minus (c.center.Plus (v.Unit.ScaledBy dist))).Unit⟩
        ⟨hitPt, (hitPt.Minus (c.center.Plus (v.Unit.ScaledBy dist))).Unit⟩ =
        some pd ∧
      mv = ⟨dist - Threshold,
        ((hitPt.Plus (v.Unit.ScaledBy (v.Magnitude - dist))).Plus
          (((hitPt.Minus (c.center.Plus (v.Unit.ScaledBy dist))).Unit).Unit.ScaledBy
            pd)).Minus hitPt,
        true, hitPt⟩ := by
  cases hb : bestHit c v segs with
  | none =>
    rw [moveCircle1_miss hb] at h
    injection h with he
    rw [← he] at hhit
    exact absurd hhit (by simp)
  | some dp =>
    obtain ⟨dist, hitPt⟩ := dp
    simp only [moveCircle1, hb] at h
    cases hpi : Ray.PlaneIntersection
        ⟨hitPt.Plus (v.Unit.ScaledBy (v.Magnitude - dist)),
          (hitPt.Minus (c.center.Plus (v.Unit.ScaledBy dist))).Unit⟩
        ⟨hitPt, (hitPt.Minus (c.center.Plus (v.Unit.ScaledBy dist))).Unit⟩ with
    | none => rw [hpi] at h; exact absurd h (by simp)
    | some pd =>
      rw [hpi] at h
      injection h with he
      exact ⟨dist, hitPt, pd, rfl, hpi, he.symm⟩

end Quart

namespace Quart

/-! Algebraic consequences of a successful sphere intersection with a unit
ray direction: the returned distance lands exactly on the sphere surface,
and every earlier point of the ray is strictly outside the sphere. -/

lemma sq_dist_expand (ox oy dx dy cx cy t vd disc s2 R : ℝ)
    (hu : dx * dx + dy * dy = 1)
    (hvd : vd = (cx - ox) * dx + (cy - oy) * dy)
    (hdisc : disc = R * R -
      ((cx - ox) * (cx - ox) + (cy - oy) * (cy - oy) - vd * vd))
    (hs : s2 * s2 = disc) :
    (ox + dx * t - cx) * (ox + dx * t - cx) +
        (oy + dy * t - cy) * (oy + dy * t - cy) =
      (vd - t) * (vd - t) - s2 * s2 + R * R := by
  linear_combination t ^ 2 * hu + hs + hdisc + 2 * t * hvd

lemma sphereIntersection_root {r : Ray} {s : Sphere} {d : ℝ}
    (hu : r.direction.SquaredMagnitude = 1)
    (h : r.SphereIntersection s = some d) :
    (r.origin.Plus (r.direction.ScaledBy d)).SquaredDistance s.center =
      s.radius * s.radius := by
  obtain ⟨hpos, hd⟩ := sphereIntersection_inv h
  have hs := Real.mul_self_sqrt hpos
  obtain ⟨⟨ox, oy⟩, ⟨dx, dy⟩⟩ := r
  obtain ⟨⟨cx, cy⟩, R⟩ := s
  simp only [Pt.Minus, Vec.Dot, Vec.SquaredMagnitude, Pt.SquaredDistance, Pt.Plus,
    Vec.ScaledBy] at hu hd hs ⊢
  subst hd
  rw [sq_dist_expand ox oy dx dy cx cy _ _ _ _ R hu rfl rfl hs]
  ring

lemma sphereIntersection_before {r : Ray} {s : Sphere} {d : ℝ}
    (hu : r.direction.SquaredMagnitude = 1)
    (h : r.SphereIntersection s = some d) :
    ∀ t : ℝ, t < d →
      s.radius * s.radius <
        (r.origin.Plus (r.direction.ScaledBy t)).SquaredDistance s.center := by
  intro t ht
  obtain ⟨hpos, hd⟩ := sphereIntersection_inv h
  have hs := Real.mul_self_sqrt hpos
  have hsn := Real.sqrt_nonneg (s.radius * s.radius -
    ((s.center.Minus r.origin).SquaredMagnitude -
      (s.center.Minus r.origin).Dot r.direction *
        (s.center.Minus r.origin).Dot r.direction))
  obtain ⟨⟨ox, oy⟩, ⟨dx, dy⟩⟩ := r
  obtain ⟨⟨cx, cy⟩, R⟩ := s
  simp only [Pt.Minus, Vec.Dot, Vec.SquaredMagnitude, Pt.SquaredDistance, Pt.Plus,
    Vec.ScaledBy] at hu hd hs hsn ht ⊢
  subst hd
  rw [sq_dist_expand ox oy dx dy cx cy t _ _ _ R hu rfl rfl hs]
  nlinarith [hsn, ht]

end Quart

namespace Quart

/-! Claim C7: the resolver never adds energy to the slide velocity. -/

lemma Vec.inverse_sqmag (v : Vec) : v.Inverse.SquaredMagnitude = v.SquaredMagnitude := by
  unfold Vec.Inverse Vec.SquaredMagnitude
  ring

lemma Vec.inverse_unit (v : Vec) : v.Inverse.Unit = ⟨-(v.Unit.x), -(v.Unit.y)⟩ := by
  have hm : v.Inverse.Magnitude = v.Magnitude := by
    unfold Vec.Magnitude
    rw [Vec.inverse_sqmag]
  simp only [Vec.Unit]
  rw [hm]
  simp only [Vec.Inverse, Vec.mk.injEq]
  exact ⟨neg_div _ _, neg_div _ _⟩

lemma Vec.unit_of_sqmag_one {n : Vec} (h : n.SquaredMagnitude = 1) : n.Unit = n := by
  unfold Vec.Unit Vec.Magnitude
  rw [h, Real.sqrt_one]
  cases n
  simp

lemma slide_sq_bound (nx ny ux uy w pd : ℝ) (hn : nx * nx + ny * ny = 1)
    (hpd : pd = -(ux * w * nx + uy * w * ny)) :
    (ux * w + nx * pd) * (ux * w + nx * pd) +
        (uy * w + ny * pd) * (uy * w + ny * pd) ≤
      w * w * (ux * ux + uy * uy) := by
  have hL : (ux * w + nx * pd) * (ux * w + nx * pd) +
      (uy * w + ny * pd) * (uy * w + ny * pd) =
      w * w * (ux * ux + uy * uy) - pd * pd := by
    linear_combination pd ^ 2 * hn + 2 * pd * hpd
  rw [hL]
  nlinarith [sq_nonneg pd]

end Quart

namespace Quart

/-- C7: whenever moveCircle1 resolves a hit whose underlying contact distance
is positive (as when a body approaches the shared vertex of two segments
along their bisector from outside), the returned slide velocity has strictly
smaller magnitude than the input velocity: the resolver never adds energy.
The returned distance is the contact distance minus Threshold, so the
positivity hypothesis reads 0 < mv.distance + Threshold. -/
theorem c7_slide_strictly_smaller (c : Circle) (v : Vec) (segs : List Segment)
    (mv : Move) (hR : 0 < c.radius) (hv : ¬ v.NearZero)
    (hmv : moveCircle1 c v segs = some mv) (hhit : mv.hit = true)
    (hpos : 0 < mv.distance + Threshold) :
    mv.newVelocity.Magnitude < v.Magnitude := by
  obtain ⟨dist, hitPt, pd, hb, hpi, hmveq⟩ := moveCircle1_inv hmv hhit
  subst hmveq
  simp only at hpos ⊢
  have hdpos : 0 < dist := by linarith [hpos]
  obtain ⟨s, _hs, hcs⟩ := bestHit_spec hb
  obtain ⟨ph, _hph, _hpeq, hsp, _hd0, hdv⟩ := circleSegmentHit_inv hcs
  have hv2 : v.SquaredMagnitude ≠ 0 := Vec.sqmag_ne_of_not_nearZero hv
  have huu : (v.Inverse.Unit).SquaredMagnitude = 1 := by
    apply Vec.unit_squaredMagnitude
    rw [Vec.inverse_sqmag]
    exact hv2
  have hroot := sphereIntersection_root huu hsp
  have hR2 : hitPt.SquaredDistance (c.center.Plus (v.Unit.ScaledBy dist)) =
      c.radius * c.radius := by
    rw [← hroot, Vec.inverse_unit]
    simp only [Pt.SquaredDistance, Pt.Plus, Vec.ScaledBy]
    ring
  set nsrc := hitPt.Minus (c.center.Plus (v.Unit.ScaledBy dist)) with hnsrc
  have hnsq : nsrc.SquaredMagnitude = c.radius * c.radius := by
    rw [hnsrc]
    exact hR2
  have hnne : nsrc.SquaredMagnitude ≠ 0 := by
    rw [hnsq]
    exact ne_of_gt (mul_pos hR hR)
  have hn1 : (nsrc.Unit).SquaredMagnitude = 1 := Vec.unit_squaredMagnitude hnne
  have hnu : (nsrc.Unit).Unit = nsrc.Unit := Vec.unit_of_sqmag_one hn1
  obtain ⟨_hden, hpdeq⟩ := planeIntersection_inv hpi
  simp only at hpdeq
  have hnn : (nsrc.Unit).Dot (nsrc.Unit) = 1 := by
    rw [dot_self_eq_squaredMagnitude]
    exact hn1
  rw [hnn, div_one] at hpdeq
  rw [hnu]
  set w := v.Magnitude - dist with hw
  have hu1 : v.Unit.x * v.Unit.x + v.Unit.y * v.Unit.y = 1 := by
    have h := Vec.unit_squaredMagnitude hv2
    unfold Vec.SquaredMagnitude at h
    exact h
  have hn1c : (nsrc.Unit).x * (nsrc.Unit).x + (nsrc.Unit).y * (nsrc.Unit).y = 1 := by
    have h := hn1
    unfold Vec.SquaredMagnitude at h
    exact h
  have hpd2 : pd = -(v.Unit.x * w * (nsrc.Unit).x + v.Unit.y * w * (nsrc.Unit).y) := by
    rw [hpdeq]
    simp only [Vec.Dot, Pt.toVec, Pt.Plus, Vec.ScaledBy]
    ring
  have hcomp : (((hitPt.Plus (v.Unit.ScaledBy w)).Plus
      ((nsrc.Unit).ScaledBy pd)).Minus hitPt).SquaredMagnitude =
      (v.Unit.x * w + (nsrc.Unit).x * pd) * (v.Unit.x * w + (nsrc.Unit).x * pd) +
        (v.Unit.y * w + (nsrc.Unit).y * pd) * (v.Unit.y * w + (nsrc.Unit).y * pd) := by
    simp only [Vec.SquaredMagnitude, Pt.Plus, Pt.Minus, Vec.ScaledBy]
    ring
  have hub : (((hitPt.Plus (v.Unit.ScaledBy w)).Plus
      ((nsrc.Unit).ScaledBy pd)).Minus hitPt).SquaredMagnitude ≤ w * w := by
    rw [hcomp]
    calc (v.Unit.x * w + (nsrc.Unit).x * pd) * (v.Unit.x * w + (nsrc.Unit).x * pd) +
        (v.Unit.y * w + (nsrc.Unit).y * pd) * (v.Unit.y * w + (nsrc.Unit).y * pd) ≤
        w * w * (v.Unit.x * v.Unit.x + v.Unit.y * v.Unit.y) :=
          slide_sq_bound _ _ _ _ _ _ hn1c hpd2
      _ = w * w := by rw [hu1]; ring
  have hwnn : 0 ≤ w := by rw [hw]; linarith [hdv]
  have hmag : (((hitPt.Plus (v.Unit.ScaledBy w)).Plus
      ((nsrc.Unit).ScaledBy pd)).Minus hitPt).Magnitude ≤ w := by
    unfold Vec.Magnitude
    calc Real.sqrt (((hitPt.Plus (v.Unit.ScaledBy w)).Plus
        ((nsrc.Unit).ScaledBy pd)).Minus hitPt).SquaredMagnitude ≤
        Real.sqrt (w * w) := Real.sqrt_le_sqrt hub
      _ = w := Real.sqrt_mul_self hwnn
  have hwlt : w < v.Magnitude := by rw [hw]; linarith [hdpos]
  linarith [hmag]

end Quart

namespace Quart

/-! C7 witness scenario: circle of radius 1 at (0,6) descending with velocity
(0,-5) into the corner formed by segments (0,0)-(3,4) and (-3,4)-(0,0),
approaching the shared vertex region along the bisector (the y-axis). -/

lemma bestHit_pair {c : Circle} {v : Vec} {s1 s2 : Segment} {d1 d2 : ℝ}
    {p1 p2 : Pt} (h1 : circleSegmentHit c v s1 = some (d1, p1))
    (h2 : circleSegmentHit c v s2 = some (d2, p2)) (hle : ¬ d2 < d1) :
    bestHit c v [s1, s2] = some (d1, p1) := by
  unfold bestHit
  rw [List.foldl_cons, List.foldl_cons, List.foldl_nil]
  rw [show bestHitStep c v none s1 = some (d1, p1) by simp only [bestHitStep, h1]]
  simp only [bestHitStep, h2]
  rw [if_neg hle]

lemma c7w_mag5 : (Vec.mk 0 (-5)).Magnitude = 5 :=
  Vec.magnitude_eval (by norm_num) (by norm_num [Vec.SquaredMagnitude])

lemma c7w_unit : (Vec.mk 0 (-5)).Unit = ⟨0, -1⟩ := by
  unfold Vec.Unit
  rw [c7w_mag5]
  norm_num

lemma c7w_inv_unit : (Vec.mk 0 (-5)).Inverse.Unit = ⟨0, 1⟩ := by
  rw [show (Vec.mk 0 (-5)).Inverse = Vec.mk 0 5 by
    simp only [Vec.Inverse, Vec.mk.injEq]
    norm_num]
  unfold Vec.Unit
  rw [Vec.magnitude_eval (m := 5) (by norm_num) (by norm_num [Vec.SquaredMagnitude])]
  norm_num

lemma c7w_normal1 : (Segment.mk ⟨0, 0⟩ ⟨3, 4⟩).Normal = ⟨-(4 / 5), 3 / 5⟩ := by
  simp only [Segment.Normal]
  rw [show ((Segment.mk (Pt.mk 0 0) (Pt.mk 3 4)).p1.Minus
        (Segment.mk (Pt.mk 0 0) (Pt.mk 3 4)).p0) = Vec.mk 3 4 by
    simp only [Pt.Minus, Vec.mk.injEq]
    norm_num]
  rw [show (Vec.mk 3 4).Unit = ⟨3 / 5, 4 / 5⟩ by
    unfold Vec.Unit
    rw [Vec.magnitude_eval (m := 5) (by norm_num) (by norm_num [Vec.SquaredMagnitude])]]

lemma c7w_normal2 : (Segment.mk ⟨-3, 4⟩ ⟨0, 0⟩).Normal = ⟨4 / 5, 3 / 5⟩ := by
  simp only [Segment.Normal]
  rw [show ((Segment.mk (Pt.mk (-3) 4) (Pt.mk 0 0)).p1.Minus
        (Segment.mk (Pt.mk (-3) 4) (Pt.mk 0 0)).p0) = Vec.mk 3 (-4) by
    simp only [Pt.Minus, Vec.mk.injEq]
    norm_num]
  rw [show (Vec.mk 3 (-4)).Unit = ⟨3 / 5, -(4 / 5)⟩ by
    unfold Vec.Unit
    rw [Vec.magnitude_eval (m := 5) (by norm_num) (by norm_num [Vec.SquaredMagnitude])]
    norm_num]
  norm_num

lemma c7w_planeHit1 :
    circlePlaneHit ⟨⟨0, 6⟩, 1⟩ ⟨0, -5⟩ (Segment.mk ⟨0, 0⟩ ⟨3, 4⟩).Line =
      some ⟨4 / 5, 16 / 15⟩ := by
  rw [show (Segment.mk (Pt.mk 0 0) (Pt.mk 3 4)).Line =
      Plane.mk ⟨0, 0⟩ ⟨-(4 / 5), 3 / 5⟩ by
    simp only [Segment.Line, c7w_normal1]]
  have h1 : Ray.PlaneIntersection
      ⟨(Sphere.mk (Pt.mk 0 6) 1).center, (Vec.mk (-(4 / 5)) (3 / 5)).Inverse⟩
      ⟨⟨0, 0⟩, ⟨-(4 / 5), 3 / 5⟩⟩ = some (18 / 5) := by
    rw [planeIntersection_eval (not_f64eq_zero_neg (by
      norm_num [Vec.Dot, Vec.Inverse, Threshold]))]
    norm_num [Vec.Dot, Vec.Inverse, Pt.toVec]
  have h2 : Ray.PlaneIntersection
      ⟨(Sphere.mk (Pt.mk 0 6) 1).center.Plus
          ((Vec.mk (-(4 / 5)) (3 / 5)).Inverse.ScaledBy (Sphere.mk (Pt.mk 0 6) 1).radius),
        (Vec.mk 0 (-5)).Unit⟩ ⟨⟨0, 0⟩, ⟨-(4 / 5), 3 / 5⟩⟩ = some (13 / 3) := by
    rw [planeIntersection_eval (by
      rw [show (Ray.mk ((Sphere.mk (Pt.mk 0 6) 1).center.Plus
            ((Vec.mk (-(4 / 5)) (3 / 5)).Inverse.ScaledBy
              (Sphere.mk (Pt.mk 0 6) 1).radius)) (Vec.mk 0 (-5)).Unit).direction =
          (Vec.mk 0 (-5)).Unit from rfl]
      rw [c7w_unit]
      apply not_f64eq_zero_neg
      norm_num [Vec.Dot, Threshold])]
    rw [show (Ray.mk ((Sphere.mk (Pt.mk 0 6) 1).center.Plus
          ((Vec.mk (-(4 / 5)) (3 / 5)).Inverse.ScaledBy
            (Sphere.mk (Pt.mk 0 6) 1).radius)) (Vec.mk 0 (-5)).Unit).direction =
        (Vec.mk 0 (-5)).Unit from rfl]
    rw [c7w_unit]
    norm_num [Vec.Dot, Vec.Inverse, Vec.ScaledBy, Pt.toVec, Pt.Plus]
  rw [circlePlaneHit_far h1 (by norm_num) (by norm_num) h2 (by norm_num)]
  rw [c7w_unit]
  norm_num [Vec.Inverse, Vec.ScaledBy, Pt.Plus]

set_option maxHeartbeats 1000000 in
lemma c7w_planeHit2 :
    circlePlaneHit ⟨⟨0, 6⟩, 1⟩ ⟨0, -5⟩ (Segment.mk ⟨-3, 4⟩ ⟨0, 0⟩).Line =
      some ⟨-(4 / 5), 16 / 15⟩ := by
  rw [show (Segment.mk (Pt.mk (-3) 4) (Pt.mk 0 0)).Line =
      Plane.mk ⟨-3, 4⟩ ⟨4 / 5, 3 / 5⟩ by
    simp only [Segment.Line, c7w_normal2]]
  have h1 : Ray.PlaneIntersection
      ⟨(Sphere.mk (Pt.mk 0 6) 1).center, (Vec.mk (4 / 5) (3 / 5)).Inverse⟩
      ⟨⟨-3, 4⟩, ⟨4 / 5, 3 / 5⟩⟩ = some (18 / 5) := by
    rw [planeIntersection_eval (not_f64eq_zero_neg (by
      norm_num [Vec.Dot, Vec.Inverse, Threshold]))]
    norm_num [Vec.Dot, Vec.Inverse, Pt.toVec]
  have h2 : Ray.PlaneIntersection
      ⟨(Sphere.mk (Pt.mk 0 6) 1).center.Plus
          ((Vec.mk (4 / 5) (3 / 5)).Inverse.ScaledBy (Sphere.mk (Pt.mk 0 6) 1).radius),
        (Vec.mk 0 (-5)).Unit⟩ ⟨⟨-3, 4⟩, ⟨4 / 5, 3 / 5⟩⟩ = some (13 / 3) := by
    rw [planeIntersection_eval (by
      rw [show (Ray.mk ((Sphere.mk (Pt.mk 0 6) 1).center.Plus
            ((Vec.mk (4 / 5) (3 / 5)).Inverse.ScaledBy
              (Sphere.mk (Pt.mk 0 6) 1).radius)) (Vec.mk 0 (-5)).Unit).direction =
          (Vec.mk 0 (-5)).Unit from rfl]
      rw [c7w_unit]
      apply not_f64eq_zero_neg
      norm_num [Vec.Dot, Threshold])]
    rw [show (Ray.mk ((Sphere.mk (Pt.mk 0 6) 1).center.Plus
          ((Vec.mk (4 / 5) (3 / 5)).Inverse.ScaledBy
            (Sphere.mk (Pt.mk 0 6) 1).radius)) (Vec.mk 0 (-5)).Unit).direction =
        (Vec.mk 0 (-5)).Unit from rfl]
    rw [c7w_unit]
    norm_num [Vec.Dot, Vec.Inverse, Vec.ScaledBy, Pt.toVec, Pt.Plus]
  rw [circlePlaneHit_far h1 (by norm_num) (by norm_num) h2 (by norm_num)]
  rw [c7w_unit]
  norm_num [Vec.Inverse, Vec.ScaledBy, Pt.Plus]

end Quart

namespace Quart

lemma c7w_nearest1 :
    (Segment.mk ⟨0, 0⟩ ⟨3, 4⟩).NearestPoint ⟨4 / 5, 16 / 15⟩ = ⟨4 / 5, 16 / 15⟩ := by
  have hd : ((Segment.mk (Pt.mk 0 0) (Pt.mk 3 4)).p1.Minus
      (Segment.mk (Pt.mk 0 0) (Pt.mk 3 4)).p0) = Vec.mk 3 4 := by
    simp only [Pt.Minus, Vec.mk.injEq]
    norm_num
  have hu : ((Segment.mk (Pt.mk 0 0) (Pt.mk 3 4)).p1.Minus
      (Segment.mk (Pt.mk 0 0) (Pt.mk 3 4)).p0).Unit = Vec.mk (3 / 5) (4 / 5) := by
    rw [hd]
    unfold Vec.Unit
    rw [Vec.magnitude_eval (m := 5) (by norm_num) (by norm_num [Vec.SquaredMagnitude])]
  have hdot : (((Segment.mk (Pt.mk 0 0) (Pt.mk 3 4)).p1.Minus
      (Segment.mk (Pt.mk 0 0) (Pt.mk 3 4)).p0).Unit).Dot
      ((Pt.mk (4 / 5) (16 / 15)).Minus (Segment.mk (Pt.mk 0 0) (Pt.mk 3 4)).p0) =
      4 / 3 := by
    rw [hu]
    simp only [Vec.Dot, Pt.Minus]
    norm_num
  rw [nearestPoint_mid (by rw [hdot]; norm_num) (by
    rw [hdot, hd, Vec.magnitude_eval (m := 5) (by norm_num)
      (by norm_num [Vec.SquaredMagnitude])]
    norm_num)]
  rw [hdot, hu]
  simp only [Pt.Plus, Vec.ScaledBy, Pt.mk.injEq]
  norm_num

lemma c7w_nearest2 :
    (Segment.mk ⟨-3, 4⟩ ⟨0, 0⟩).NearestPoint ⟨-(4 / 5), 16 / 15⟩ =
      ⟨-(4 / 5), 16 / 15⟩ := by
  have hd : ((Segment.mk (Pt.mk (-3) 4) (Pt.mk 0 0)).p1.Minus
      (Segment.mk (Pt.mk (-3) 4) (Pt.mk 0 0)).p0) = Vec.mk 3 (-4) := by
    simp only [Pt.Minus, Vec.mk.injEq]
    norm_num
  have hu : ((Segment.mk (Pt.mk (-3) 4) (Pt.mk 0 0)).p1.Minus
      (Segment.mk (Pt.mk (-3) 4) (Pt.mk 0 0)).p0).Unit = Vec.mk (3 / 5) (-(4 / 5)) := by
    rw [hd]
    unfold Vec.Unit
    rw [Vec.magnitude_eval (m := 5) (by norm_num) (by norm_num [Vec.SquaredMagnitude])]
    norm_num
  have hdot : (((Segment.mk (Pt.mk (-3) 4) (Pt.mk 0 0)).p1.Minus
      (Segment.mk (Pt.mk (-3) 4) (Pt.mk 0 0)).p0).Unit).Dot
      ((Pt.mk (-(4 / 5)) (16 / 15)).Minus (Segment.mk (Pt.mk (-3) 4) (Pt.mk 0 0)).p0) =
      11 / 3 := by
    rw [hu]
    simp only [Vec.Dot, Pt.Minus]
    norm_num
  rw [nearestPoint_mid (by rw [hdot]; norm_num) (by
    rw [hdot, hd, Vec.magnitude_eval (m := 5) (by norm_num)
      (by norm_num [Vec.SquaredMagnitude])]
    norm_num)]
  rw [hdot, hu]
  simp only [Pt.Plus, Vec.ScaledBy, Pt.mk.injEq]
  norm_num

lemma c7w_sphere1 :
    Ray.SphereIntersection ⟨⟨4 / 5, 16 / 15⟩, (Vec.mk 0 (-5)).Inverse.Unit⟩
      ⟨⟨0, 6⟩, 1⟩ = some (13 / 3) := by
  rw [c7w_inv_unit]
  rw [sphereIntersection_eval (D := 9 / 25) (by
    simp only [Pt.Minus, Vec.Dot, Vec.SquaredMagnitude]
    norm_num) (by norm_num)]
  rw [show Real.sqrt (9 / 25) = 3 / 5 from sqrtEval (by norm_num) (by norm_num)]
  simp only [Pt.Minus, Vec.Dot, Option.some.injEq]
  norm_num

lemma c7w_sphere2 :
    Ray.SphereIntersection ⟨⟨-(4 / 5), 16 / 15⟩, (Vec.mk 0 (-5)).Inverse.Unit⟩
      ⟨⟨0, 6⟩, 1⟩ = some (13 / 3) := by
  rw [c7w_inv_unit]
  rw [sphereIntersection_eval (D := 9 / 25) (by
    simp only [Pt.Minus, Vec.Dot, Vec.SquaredMagnitude]
    norm_num) (by norm_num)]
  rw [show Real.sqrt (9 / 25) = 3 / 5 from sqrtEval (by norm_num) (by norm_num)]
  simp only [Pt.Minus, Vec.Dot, Option.some.injEq]
  norm_num

lemma c7w_segHit1 :
    circleSegmentHit ⟨⟨0, 6⟩, 1⟩ ⟨0, -5⟩ (Segment.mk ⟨0, 0⟩ ⟨3, 4⟩) =
      some (13 / 3, ⟨4 / 5, 16 / 15⟩) := by
  have h := circleSegmentHit_eval c7w_planeHit1
    (by rw [c7w_nearest1]; exact c7w_sphere1) (by norm_num)
    (by rw [c7w_mag5]; norm_num)
  rw [h, c7w_nearest1]

lemma c7w_segHit2 :
    circleSegmentHit ⟨⟨0, 6⟩, 1⟩ ⟨0, -5⟩ (Segment.mk ⟨-3, 4⟩ ⟨0, 0⟩) =
      some (13 / 3, ⟨-(4 / 5), 16 / 15⟩) := by
  have h := circleSegmentHit_eval c7w_planeHit2
    (by rw [c7w_nearest2]; exact c7w_sphere2) (by norm_num)
    (by rw [c7w_mag5]; norm_num)
  rw [h, c7w_nearest2]

lemma c7w_move1 :
    moveCircle1 ⟨⟨0, 6⟩, 1⟩ ⟨0, -5⟩
        [Segment.mk ⟨0, 0⟩ ⟨3, 4⟩, Segment.mk ⟨-3, 4⟩ ⟨0, 0⟩] =
      some ⟨13 / 3 - Threshold, ⟨-(8 / 25), -(32 / 75)⟩, true, ⟨4 / 5, 16 / 15⟩⟩ := by
  have hb : bestHit ⟨⟨0, 6⟩, 1⟩ ⟨0, -5⟩
      [Segment.mk ⟨0, 0⟩ ⟨3, 4⟩, Segment.mk ⟨-3, 4⟩ ⟨0, 0⟩] =
      some (13 / 3, ⟨4 / 5, 16 / 15⟩) :=
    bestHit_pair c7w_segHit1 c7w_segHit2 (by norm_num)
  have hc : (Sphere.mk (Pt.mk 0 6) 1).center.Plus
      ((Vec.mk 0 (-5)).Unit.ScaledBy (13 / 3)) = Pt.mk 0 (5 / 3) := by
    rw [c7w_unit]
    simp only [Pt.Plus, Vec.ScaledBy, Pt.mk.injEq]
    norm_num
  have hn : ((Pt.mk (4 / 5) (16 / 15)).Minus ((Sphere.mk (Pt.mk 0 6) 1).center.Plus
      ((Vec.mk 0 (-5)).Unit.ScaledBy (13 / 3)))).Unit = Vec.mk (4 / 5) (-(3 / 5)) := by
    rw [hc]
    rw [show ((Pt.mk (4 / 5) (16 / 15)).Minus (Pt.mk 0 (5 / 3))) =
        Vec.mk (4 / 5) (-(3 / 5)) by
      simp only [Pt.Minus, Vec.mk.injEq]
      norm_num]
    unfold Vec.Unit
    rw [Vec.magnitude_eval (m := 1) (by norm_num) (by norm_num [Vec.SquaredMagnitude])]
    norm_num
  have hdest : (Pt.mk (4 / 5) (16 / 15)).Plus ((Vec.mk 0 (-5)).Unit.ScaledBy
      ((Vec.mk 0 (-5)).Magnitude - 13 / 3)) = Pt.mk (4 / 5) (2 / 5) := by
    rw [c7w_unit, c7w_mag5]
    simp only [Pt.Plus, Vec.ScaledBy, Pt.mk.injEq]
    norm_num
  have hpi : Ray.PlaneIntersection ⟨⟨4 / 5, 2 / 5⟩, ⟨4 / 5, -(3 / 5)⟩⟩
      ⟨⟨4 / 5, 16 / 15⟩, ⟨4 / 5, -(3 / 5)⟩⟩ = some (-(2 / 5)) := by
    rw [planeIntersection_eval (not_f64eq_zero_pos (by
      norm_num [Vec.Dot, Threshold]))]
    simp only [Vec.Dot, Pt.toVec, Option.some.injEq]
    norm_num
  rw [moveCircle1_hit hb hn hdest hpi]
  rw [show (Vec.mk (4 / 5) (-(3 / 5))).Unit = Vec.mk (4 / 5) (-(3 / 5)) by
    unfold Vec.Unit
    rw [Vec.magnitude_eval (m := 1) (by norm_num) (by norm_num [Vec.SquaredMagnitude])]
    norm_num]
  simp only [Pt.Plus, Pt.Minus, Vec.ScaledBy, Option.some.injEq, Move.mk.injEq,
    Vec.mk.injEq]
  norm_num

/-- C7 witness: the corner scenario, a circle descending along the bisector
of two segments meeting at the origin; the slide velocity's magnitude 8/15 is
strictly below the input speed 5. -/
theorem c7_witness :
    moveCircle1 ⟨⟨0, 6⟩, 1⟩ ⟨0, -5⟩
        [Segment.mk ⟨0, 0⟩ ⟨3, 4⟩, Segment.mk ⟨-3, 4⟩ ⟨0, 0⟩] =
      some ⟨13 / 3 - Threshold, ⟨-(8 / 25), -(32 / 75)⟩, true, ⟨4 / 5, 16 / 15⟩⟩ ∧
    (Vec.mk (-(8 / 25)) (-(32 / 75))).Magnitude < (Vec.mk 0 (-5)).Magnitude := by
  refine ⟨c7w_move1, ?_⟩
  have h := c7_slide_strictly_smaller ⟨⟨0, 6⟩, 1⟩ ⟨0, -5⟩
    [Segment.mk ⟨0, 0⟩ ⟨3, 4⟩, Segment.mk ⟨-3, 4⟩ ⟨0, 0⟩]
    ⟨13 / 3 - Threshold, ⟨-(8 / 25), -(32 / 75)⟩, true, ⟨4 / 5, 16 / 15⟩⟩
    (by norm_num)
    (Vec.not_nearZero_of_big_y (Or.inr (by norm_num [Threshold])))
    c7w_move1 rfl
    (by simp only; norm_num)
  exact h

end Quart

namespace Quart

/-! Claim C1: after a resolved collision, the advanced circle is never
embedded in the collided segment beyond the Threshold tolerance.

The proof works in the orthonormal frame spanned by the segment's unit
direction and its normal.  The following helpers convert dot products and
squared distances into frame coordinates, and the core case lemmas settle
the resulting real-arithmetic goals. -/

lemma rot90_sqmag (e : Vec) : (rotate90 e).SquaredMagnitude = e.SquaredMagnitude := by
  unfold rotate90 Vec.SquaredMagnitude
  ring

lemma frame_dot (e a b : Vec) (he : e.SquaredMagnitude = 1) :
    a.Dot b = (e.Dot a) * (e.Dot b) + ((rotate90 e).Dot a) * ((rotate90 e).Dot b) := by
  unfold rotate90 Vec.Dot Vec.SquaredMagnitude at *
  linear_combination (-(a.x * b.x + a.y * b.y)) * he

lemma frame_sqdist (e : Vec) (a b : Pt) (he : e.SquaredMagnitude = 1) :
    a.SquaredDistance b =
      (e.Dot (a.Minus b)) * (e.Dot (a.Minus b)) +
        ((rotate90 e).Dot (a.Minus b)) * ((rotate90 e).Dot (a.Minus b)) := by
  have h := frame_dot e (a.Minus b) (a.Minus b) he
  calc a.SquaredDistance b = (a.Minus b).Dot (a.Minus b) := by
        simp only [Pt.SquaredDistance, Pt.Minus, Vec.Dot]
    _ = _ := h

lemma frame_affine (w dirv : Vec) (a b p0 : Pt) (t : ℝ) :
    w.Dot ((a.Plus (dirv.ScaledBy t)).Minus b) =
      w.Dot (a.Minus p0) - w.Dot (b.Minus p0) + (w.Dot dirv) * t := by
  simp only [Vec.Dot, Pt.Plus, Pt.Minus, Vec.ScaledBy]
  ring

lemma frame_split (w : Vec) (a b p0 : Pt) :
    w.Dot (a.Minus b) = w.Dot (a.Minus p0) - w.Dot (b.Minus p0) := by
  simp only [Vec.Dot, Pt.Minus]
  ring

lemma inverse_dot (a b : Vec) : a.Inverse.Dot b = -(a.Dot b) := by
  unfold Vec.Inverse Vec.Dot
  ring

lemma dot_inverse (a b : Vec) : a.Dot b.Inverse = -(a.Dot b) := by
  unfold Vec.Inverse Vec.Dot
  ring

lemma unit_dot_base {V : Vec} (h : V.SquaredMagnitude ≠ 0) :
    V.Unit.Dot V = V.Magnitude := by
  have hm := Vec.magnitude_mul_self V
  have hp := Vec.magnitude_pos h
  unfold Vec.Unit Vec.Dot
  field_simp
  unfold Vec.SquaredMagnitude at hm
  linarith [hm]

lemma rot_unit_dot_base (V : Vec) : (rotate90 V.Unit).Dot V = 0 := by
  unfold rotate90 Vec.Unit Vec.Dot
  ring

end Quart

namespace Quart

/-! Core case lemmas for C1, stated over frame coordinates relative to the
clamped endpoint (for the endpoint cases) or over the raw frame (interior
cases).  Conventions: the segment extends in the nonneg x direction from the
endpoint, the circle starts at (cx, s), the unit velocity is (ux, uy), the
sphere contact around the reference point happens at parameter d, and every
earlier parameter is strictly outside the sphere. -/

lemma abs_bound_of_sq_le {a R : ℝ} (h : a * a ≤ R * R) (hR : 0 ≤ R) :
    -R ≤ a ∧ a ≤ R := by
  constructor
  · nlinarith [sq_nonneg (a + R), sq_nonneg (a - R)]
  · nlinarith [sq_nonneg (a + R), sq_nonneg (a - R)]

lemma core_embedded_endpoint (cx s ux uy d R Xq : ℝ)
    (hs0 : 0 ≤ s) (hsR : s ≤ R) (hcx : cx < 0) (hd0 : 0 ≤ d)
    (hroot : (cx + ux * d) * (cx + ux * d) + (s + uy * d) * (s + uy * d) = R * R)
    (hfirst : ∀ t : ℝ, t < d →
      R * R < (cx + ux * t) * (cx + ux * t) + (s + uy * t) * (s + uy * t))
    (hXq : 0 ≤ Xq) :
    R * R ≤ (cx + ux * d - Xq) * (cx + ux * d - Xq) +
      (s + uy * d) * (s + uy * d) := by
  by_contra hlt
  push_neg at hlt
  have h1 : Xq * (Xq - 2 * (cx + ux * d)) < 0 := by linarith [hlt, hroot]
  have hXqpos : 0 < Xq := by
    rcases eq_or_lt_of_le hXq with h | h
    · exfalso
      rw [← h] at h1
      simp at h1
    · exact h
  have hmx : 0 < cx + ux * d := by nlinarith [h1, mul_pos hXqpos hXqpos]
  rcases eq_or_lt_of_le hd0 with hd | hd
  · rw [← hd] at hmx
    simp at hmx
    linarith
  · have hux : 0 < ux := by
      by_contra hux0
      push_neg at hux0
      have h2 : (-ux) * d ≥ 0 := mul_nonneg (neg_nonneg.mpr hux0) (le_of_lt hd)
      linarith [hmx, hcx, h2]
    set tst := -cx / ux with htst
    have ht0 : 0 < tst := div_pos (neg_pos.mpr hcx) hux
    have htx : cx + ux * tst = 0 := by
      rw [htst]
      field_simp
      ring
    have htd : tst < d := by
      rw [htst, div_lt_iff hux]
      linarith [hmx]
    have hf := hfirst tst htd
    rw [htx] at hf
    have hf2 : R * R < (s + uy * tst) * (s + uy * tst) := by linarith [hf]
    have hR0 : 0 ≤ R := le_trans hs0 hsR
    have hmy2 : (s + uy * d) * (s + uy * d) ≤ R * R := by
      linarith [hroot, mul_self_nonneg (cx + ux * d)]
    obtain ⟨hmyl, hmyu⟩ := abs_bound_of_sq_le hmy2 hR0
    rcases le_or_lt uy 0 with huy | huy
    · have hy1 : uy * tst ≤ 0 := by
        linarith [mul_nonneg (neg_nonneg.mpr huy) (le_of_lt ht0)]
      have hy2 : uy * d ≤ uy * tst := by
        linarith [mul_nonneg (neg_nonneg.mpr huy) (le_of_lt (sub_pos.mpr htd))]
      have hu1 : s + uy * tst ≤ R := by linarith
      have hu2 : -R ≤ s + uy * tst := by linarith
      linarith [hf2, mul_nonneg (sub_nonneg.mpr hu1)
        (by linarith : (0 : ℝ) ≤ s + uy * tst + R)]
    · have hy1 : 0 ≤ uy * tst := le_of_lt (mul_pos huy ht0)
      have hy2 : uy * tst ≤ uy * d := by
        linarith [mul_pos huy (sub_pos.mpr htd)]
      have hu1 : s + uy * tst ≤ R := by linarith
      have hu2 : -R ≤ s + uy * tst := by linarith
      linarith [hf2, mul_nonneg (sub_nonneg.mpr hu1)
        (by linarith : (0 : ℝ) ≤ s + uy * tst + R)]

lemma core_far_endpoint (cx s ux uy tpl d R Xq : ℝ)
    (hR : 0 < R) (hsR : R < s) (huy : uy < 0) (hd0 : 0 ≤ d)
    (htpl : s + uy * tpl = R)
    (hpx : cx + ux * tpl < 0)
    (hroot : (cx + ux * d) * (cx + ux * d) + (s + uy * d) * (s + uy * d) = R * R)
    (hfirst : ∀ t : ℝ, t < d →
      R * R < (cx + ux * t) * (cx + ux * t) + (s + uy * t) * (s + uy * t))
    (hXq : 0 ≤ Xq) :
    R * R ≤ (cx + ux * d - Xq) * (cx + ux * d - Xq) +
      (s + uy * d) * (s + uy * d) := by
  by_contra hlt
  push_neg at hlt
  have h1 : Xq * (Xq - 2 * (cx + ux * d)) < 0 := by linarith [hlt, hroot]
  have hXqpos : 0 < Xq := by
    rcases eq_or_lt_of_le hXq with h | h
    · exfalso
      rw [← h] at h1
      simp at h1
    · exact h
  have hmx : 0 < cx + ux * d := by nlinarith [h1, mul_pos hXqpos hXqpos]
  have htplpos : 0 < tpl := by
    by_contra htp
    push_neg at htp
    linarith [mul_nonneg (neg_nonneg.mpr (le_of_lt huy)) (neg_nonneg.mpr htp),
      htpl, hsR]
  have hmy2 : (s + uy * d) * (s + uy * d) ≤ R * R := by
    linarith [hroot, mul_self_nonneg (cx + ux * d)]
  obtain ⟨hmyl, hmyu⟩ := abs_bound_of_sq_le hmy2 (le_of_lt hR)
  rcases lt_or_le cx 0 with hcx | hcx
  · have hdpos : 0 < d := by
      rcases eq_or_lt_of_le hd0 with hd | hd
      · exfalso
        rw [← hd] at hmx
        simp at hmx
        linarith
      · exact hd
    have hux : 0 < ux := by
      by_contra hux0
      push_neg at hux0
      have h2 : (-ux) * d ≥ 0 := mul_nonneg (neg_nonneg.mpr hux0) (le_of_lt hdpos)
      linarith [hmx, hcx, h2]
    set tst := -cx / ux with htst
    have ht0 : 0 < tst := div_pos (neg_pos.mpr hcx) hux
    have htx : cx + ux * tst = 0 := by
      rw [htst]
      field_simp
      ring
    have htd : tst < d := by
      rw [htst, div_lt_iff hux]
      linarith [hmx]
    have hf := hfirst tst htd
    rw [htx] at hf
    have hf2 : R * R < (s + uy * tst) * (s + uy * tst) := by linarith [hf]
    have hym : s + uy * d < s + uy * tst := by
      linarith [mul_pos (neg_pos.mpr huy) (sub_pos.mpr htd)]
    have hYgtR : R < s + uy * tst := by
      by_contra hc
      push_neg at hc
      linarith [hf2, mul_nonneg (sub_nonneg.mpr hc)
        (by linarith : (0 : ℝ) ≤ s + uy * tst + R)]
    have htstpl : tst < tpl := by
      by_contra hc
      push_neg at hc
      linarith [mul_nonneg (neg_nonneg.mpr (le_of_lt huy)) (sub_nonneg.mpr hc),
        htpl, hYgtR]
    have hgt : 0 < ux * (tpl - tst) := mul_pos hux (sub_pos.mpr htstpl)
    linarith [hpx, htx, hgt]
  · have hux : ux < 0 := by
      by_contra hux0
      push_neg at hux0
      linarith [hpx, hcx, mul_nonneg hux0 (le_of_lt htplpos)]
    have hdtpl : tpl ≤ d := by
      by_contra hc
      push_neg at hc
      linarith [mul_pos (neg_pos.mpr huy) (sub_pos.mpr hc), htpl, hmyu]
    linarith [mul_nonneg (neg_nonneg.mpr (le_of_lt hux)) (sub_nonneg.mpr hdtpl),
      hmx, hpx]

lemma core_far_interior (cx s ux uy tpl d R px Xq : ℝ)
    (hR : 0 ≤ R) (huy : uy < 0)
    (htpl : s + uy * tpl = R)
    (hpxval : cx + ux * tpl = px)
    (hroot : (cx + ux * d - px) * (cx + ux * d - px) +
      (s + uy * d) * (s + uy * d) = R * R)
    (hfirst : ∀ t : ℝ, t < d →
      R * R < (cx + ux * t - px) * (cx + ux * t - px) +
        (s + uy * t) * (s + uy * t)) :
    R * R ≤ (cx + ux * d - Xq) * (cx + ux * d - Xq) +
      (s + uy * d) * (s + uy * d) := by
  rcases lt_trichotomy d tpl with h | h | h
  · have hmy : R < s + uy * d := by
      linarith [mul_pos (neg_pos.mpr huy) (sub_pos.mpr h), htpl]
    linarith [mul_self_nonneg (cx + ux * d - Xq),
      mul_pos (sub_pos.mpr hmy) (by linarith : (0 : ℝ) < s + uy * d + R)]
  · subst h
    rw [htpl]
    linarith [mul_self_nonneg (cx + ux * d - Xq)]
  · exfalso
    have hf := hfirst tpl h
    rw [show cx + ux * tpl - px = 0 by linarith] at hf
    rw [htpl] at hf
    linarith [hf]

lemma core_embedded_interior (cx s ux uy d R Xq : ℝ)
    (hs0 : 0 ≤ s) (hsR : s ≤ R) (hd0 : 0 ≤ d)
    (hroot : (cx + ux * d - cx) * (cx + ux * d - cx) +
      (s + uy * d) * (s + uy * d) = R * R)
    (hfirst : ∀ t : ℝ, t < d →
      R * R < (cx + ux * t - cx) * (cx + ux * t - cx) +
        (s + uy * t) * (s + uy * t)) :
    R * R ≤ (cx + ux * d - Xq) * (cx + ux * d - Xq) +
      (s + uy * d) * (s + uy * d) := by
  rcases eq_or_lt_of_le hd0 with hd | hd
  · rw [← hd] at hroot ⊢
    nlinarith [mul_self_nonneg (cx + ux * 0 - Xq), hroot]
  · exfalso
    have hf := hfirst 0 hd
    linarith [hf, hs0, hsR, mul_nonneg (sub_nonneg.mpr hsR)
      (by linarith : (0 : ℝ) ≤ R + s)]

/-- Dispatch of the four core cases.  Frame conventions: the segment runs
from x = 0 to x = L along the x axis; the circle center sits at (ax, ay)
with ay the signed distance to the segment's line on the normal side; the
unit velocity has frame coordinates (ux, uy); Xph is the x coordinate of
the plane hit, pX its clamp onto [0, L] (the nearest segment point), d the
sphere-contact parameter and qX the x coordinate of an arbitrary segment
point.  hbr records which circlePlaneHit branch produced Xph. -/
lemma core_dispatch (ax ay ux uy L Xph pX d R qX : ℝ)
    (hR : 0 < R)
    (hay : 0 ≤ ay)
    (hd0 : 0 ≤ d)
    (hqX0 : 0 ≤ qX) (hqXL : qX ≤ L)
    (hbr : (ay ≤ R ∧ Xph = ax) ∨
      (R < ay ∧ uy < 0 ∧ ∃ e, 0 ≤ e ∧ uy * e = R - ay ∧ Xph = ax + ux * e))
    (hclamp : (Xph < 0 ∧ pX = 0) ∨ (L < Xph ∧ pX = L) ∨ pX = Xph)
    (hroot : (ax + ux * d - pX) * (ax + ux * d - pX) +
      (ay + uy * d) * (ay + uy * d) = R * R)
    (hfirst : ∀ t : ℝ, t < d →
      R * R < (ax + ux * t - pX) * (ax + ux * t - pX) +
        (ay + uy * t) * (ay + uy * t)) :
    R * R ≤ (ax + ux * d - qX) * (ax + ux * d - qX) +
      (ay + uy * d) * (ay + uy * d) := by
  rcases hclamp with ⟨hxl, hp0⟩ | ⟨hxh, hpL⟩ | hpx
  · subst hp0
    simp only [sub_zero] at hroot hfirst
    rcases hbr with ⟨hsR, hXa⟩ | ⟨hsR, huy, e, he0, hue, hXa⟩
    · exact core_embedded_endpoint ax ay ux uy d R qX hay hsR
        (hXa ▸ hxl) hd0 hroot hfirst hqX0
    · exact core_far_endpoint ax ay ux uy e d R qX hR hsR huy hd0
        (by linarith [hue]) (by rw [← hXa]; exact hxl) hroot hfirst hqX0
  · rw [hpL] at hroot hfirst
    rcases hbr with ⟨hsR, hXa⟩ | ⟨hsR, huy, e, he0, hue, hXa⟩
    · have hcore := core_embedded_endpoint (L - ax) ay (-ux) uy d R (L - qX)
        hay hsR (by rw [hXa] at hxh; linarith) hd0
        (by linear_combination hroot)
        (fun t ht => by linarith [hfirst t ht])
        (by linarith)
      linarith [hcore]
    · have hcore := core_far_endpoint (L - ax) ay (-ux) uy e d R (L - qX)
        hR hsR huy hd0 (by linarith [hue])
        (by rw [hXa] at hxh; linarith)
        (by linear_combination hroot)
        (fun t ht => by linarith [hfirst t ht])
        (by linarith)
      linarith [hcore]
  · rcases hbr with ⟨hsR, hXa⟩ | ⟨hsR, huy, e, he0, hue, hXa⟩
    · rw [hXa] at hpx
      rw [hpx] at hroot hfirst
      exact core_embedded_interior ax ay ux uy d R qX hay hsR hd0 hroot hfirst
    · rw [hpx] at hroot hfirst
      exact core_far_interior ax ay ux uy e d R Xph qX (le_of_lt hR) huy
        (by linarith [hue]) hXa.symm hroot hfirst

lemma dot_comm (a b : Vec) : a.Dot b = b.Dot a := by
  unfold Vec.Dot
  ring

lemma dot_sub_self (w : Vec) (a : Pt) : w.Dot (a.Minus a) = 0 := by
  simp only [Vec.Dot, Pt.Minus]
  ring

lemma rot90_dot (e : Vec) : (rotate90 e).Dot e = 0 := by
  unfold rotate90 Vec.Dot
  ring

lemma dot_rot90 (e : Vec) : e.Dot (rotate90 e) = 0 := by
  unfold rotate90 Vec.Dot
  ring

lemma toVec_dot_sub (w : Vec) (a b : Pt) :
    w.Dot a.toVec + -(w.Dot b.toVec) = w.Dot (a.Minus b) := by
  simp only [Vec.Dot, Pt.toVec, Pt.Minus]
  ring

/-- Inversion of circlePlaneHit for a segment's line: a successful plane hit
means the center is on the normal side of the line, and the hit point came
from the embedded branch (center within one radius of the line, hit at the
foot of the perpendicular) or from the far branch (the surface point nearest
the line, advanced along the velocity until it reaches the line). -/
lemma circlePlaneHit_inv {c : Circle} {v : Vec} {S : Segment} {ph : Pt}
    (hV : (S.p1.Minus S.p0).SquaredMagnitude ≠ 0)
    (h : circlePlaneHit c v S.Line = some ph) :
    0 ≤ S.Normal.Dot (c.center.Minus S.p0) ∧
    ((S.Normal.Dot (c.center.Minus S.p0) ≤ c.radius ∧
        ph = c.center.Plus
          (S.Normal.Inverse.ScaledBy (S.Normal.Dot (c.center.Minus S.p0)))) ∨
      (c.radius < S.Normal.Dot (c.center.Minus S.p0) ∧
        ∃ d2 : ℝ, 0 ≤ d2 ∧
          (v.Unit.Dot S.Normal) * d2 =
            c.radius - S.Normal.Dot (c.center.Minus S.p0) ∧
          ph = (c.center.Plus (S.Normal.Inverse.ScaledBy c.radius)).Plus
            (v.Unit.ScaledBy d2))) := by
  have hN1 : S.Normal.SquaredMagnitude = 1 := by
    have : S.Normal = rotate90 (S.p1.Minus S.p0).Unit := rfl
    rw [this, rot90_sqmag]
    exact Vec.unit_squaredMagnitude hV
  have hLn : S.Line.normal = S.Normal := rfl
  have hLo : S.Line.origin = S.p0 := rfl
  have hden1 : (S.Line.normal.Inverse).Dot S.Line.normal = -1 := by
    rw [hLn, inverse_dot, dot_self_eq_squaredMagnitude, hN1]
  have hne1 : ¬ Float64Equals ((S.Line.normal.Inverse).Dot S.Line.normal) 0 := by
    rw [hden1]
    exact not_f64eq_zero_neg (by linarith [threshold_lt_half])
  have hpl1 : Ray.PlaneIntersection ⟨c.center, S.Line.normal.Inverse⟩ S.Line =
      some (S.Normal.Dot (c.center.Minus S.p0)) := by
    rw [planeIntersection_eval hne1]
    congr 1
    show -(S.Line.normal.Dot c.center.toVec + -(S.Line.normal.Dot S.Line.origin.toVec)) /
        ((S.Line.normal.Inverse).Dot S.Line.normal) = _
    rw [hden1, hLn, hLo, toVec_dot_sub]
    ring
  simp only [circlePlaneHit, hpl1] at h
  split at h
  · exact absurd h (by simp)
  · next hay0 =>
    push_neg at hay0
    refine ⟨hay0, ?_⟩
    split at h
    · next hayR =>
      left
      injection h with he
      exact ⟨hayR, he.symm⟩
    · next hayR =>
      right
      push_neg at hayR
      refine ⟨hayR, ?_⟩
      set o := c.center.Plus (S.Line.normal.Inverse.ScaledBy c.radius) with ho
      have hno : S.Line.normal.Dot (o.Minus S.p0) =
          S.Normal.Dot (c.center.Minus S.p0) - c.radius := by
        rw [ho, hLn]
        rw [frame_affine S.Normal S.Normal.Inverse c.center S.p0 S.p0 c.radius]
        rw [dot_sub_self, dot_inverse, dot_self_eq_squaredMagnitude, hN1]
        ring
      by_cases hf : Float64Equals (v.Unit.Dot S.Line.normal) 0
      · rw [planeIntersection_none hf] at h
        exact absurd h (by simp)
      · have huyne : v.Unit.Dot S.Normal ≠ 0 := by
          rw [← hLn]
          intro h0
          apply hf
          rw [h0]
          exact f64eq_zero_self
        rw [planeIntersection_eval hf] at h
        simp only at h
        split at h
        · exact absurd h (by simp)
        · next hd2 =>
          push_neg at hd2
          injection h with he
          refine ⟨-(S.Line.normal.Dot o.toVec + -(S.Line.normal.Dot S.Line.origin.toVec)) /
              (v.Unit.Dot S.Line.normal), hd2, ?_, he.symm⟩
          rw [hLo, toVec_dot_sub, hno, hLn]
          field_simp

lemma nondegenerate_of_planeHit {c : Circle} {v : Vec} {S : Segment} {ph : Pt}
    (h : circlePlaneHit c v S.Line = some ph) :
    (S.p1.Minus S.p0).SquaredMagnitude ≠ 0 := by
  intro h0
  have hx : (S.p1.Minus S.p0).x = 0 ∧ (S.p1.Minus S.p0).y = 0 := by
    unfold Vec.SquaredMagnitude at h0
    constructor <;>
      nlinarith [mul_self_nonneg (S.p1.Minus S.p0).x,
        mul_self_nonneg (S.p1.Minus S.p0).y]
  have hn : (S.Line.normal.Inverse).Dot S.Line.normal = 0 := by
    show ((rotate90 (S.p1.Minus S.p0).Unit).Inverse).Dot
        (rotate90 (S.p1.Minus S.p0).Unit) = 0
    unfold rotate90 Vec.Unit Vec.Inverse Vec.Dot
    rw [hx.1, hx.2]
    norm_num
  have hden : Float64Equals ((S.Line.normal.Inverse).Dot S.Line.normal) 0 := by
    rw [hn]
    exact f64eq_zero_self
  simp only [circlePlaneHit] at h
  rw [planeIntersection_none hden] at h
  exact absurd h (by simp)

/-- The heart of C1: a successful circle-segment hit places the circle,
advanced by the full returned distance (before the epsilon pull-back), at
squared distance at least radius squared from every point of the segment. -/
lemma segment_hit_no_overlap {c : Circle} {v : Vec} {S : Segment} {d : ℝ}
    {p q : Pt}
    (hR : 0 < c.radius)
    (hv : v.SquaredMagnitude ≠ 0)
    (hcs : circleSegmentHit c v S = some (d, p))
    (hq : S.Contains q) :
    c.radius * c.radius ≤
      (c.center.Plus (v.Unit.ScaledBy d)).SquaredDistance q := by
  obtain ⟨ph, hph, hpeq, hsp, hd0, hdle⟩ := circleSegmentHit_inv hcs
  have hV : (S.p1.Minus S.p0).SquaredMagnitude ≠ 0 := nondegenerate_of_planeHit hph
  have he : (S.p1.Minus S.p0).Unit.SquaredMagnitude = 1 :=
    Vec.unit_squaredMagnitude hV
  obtain ⟨hay0, hbr0⟩ := circlePlaneHit_inv hV hph
  have hNr : S.Normal = rotate90 ((S.p1.Minus S.p0).Unit) := rfl
  rw [hNr] at hay0 hbr0
  obtain ⟨tq, htq0, htq1, hqe⟩ := hq
  -- frame coordinates of the velocity and its inverse unit
  have hw : v.Inverse.SquaredMagnitude ≠ 0 := by
    rw [Vec.inverse_sqmag]
    exact hv
  have hw1 : (v.Inverse.Unit).SquaredMagnitude = 1 := Vec.unit_squaredMagnitude hw
  have hEw : (S.p1.Minus S.p0).Unit.Dot (v.Inverse.Unit) =
      -((S.p1.Minus S.p0).Unit.Dot v.Unit) := by
    rw [Vec.inverse_unit]
    simp only [Vec.Dot]
    ring
  have hNw : (rotate90 ((S.p1.Minus S.p0).Unit)).Dot (v.Inverse.Unit) =
      -((rotate90 ((S.p1.Minus S.p0).Unit)).Dot v.Unit) := by
    rw [Vec.inverse_unit]
    simp only [Vec.Dot]
    ring
  -- sphere contact in frame coordinates
  have hroot0 : (p.Plus ((v.Inverse.Unit).ScaledBy d)).SquaredDistance c.center =
      c.radius * c.radius := sphereIntersection_root hw1 hsp
  have hfirst0 : ∀ t : ℝ, t < d → c.radius * c.radius <
      (p.Plus ((v.Inverse.Unit).ScaledBy t)).SquaredDistance c.center :=
    sphereIntersection_before hw1 hsp
  have hconv : ∀ t : ℝ,
      (p.Plus ((v.Inverse.Unit).ScaledBy t)).SquaredDistance c.center =
      ((S.p1.Minus S.p0).Unit.Dot (c.center.Minus S.p0) +
          (S.p1.Minus S.p0).Unit.Dot v.Unit * t -
          (S.p1.Minus S.p0).Unit.Dot (p.Minus S.p0)) *
        ((S.p1.Minus S.p0).Unit.Dot (c.center.Minus S.p0) +
          (S.p1.Minus S.p0).Unit.Dot v.Unit * t -
          (S.p1.Minus S.p0).Unit.Dot (p.Minus S.p0)) +
      ((rotate90 ((S.p1.Minus S.p0).Unit)).Dot (c.center.Minus S.p0) +
          (rotate90 ((S.p1.Minus S.p0).Unit)).Dot v.Unit * t -
          (rotate90 ((S.p1.Minus S.p0).Unit)).Dot (p.Minus S.p0)) *
        ((rotate90 ((S.p1.Minus S.p0).Unit)).Dot (c.center.Minus S.p0) +
          (rotate90 ((S.p1.Minus S.p0).Unit)).Dot v.Unit * t -
          (rotate90 ((S.p1.Minus S.p0).Unit)).Dot (p.Minus S.p0)) := by
    intro t
    rw [frame_sqdist ((S.p1.Minus S.p0).Unit) _ _ he]
    rw [frame_affine ((S.p1.Minus S.p0).Unit) (v.Inverse.Unit) p c.center S.p0 t]
    rw [frame_affine (rotate90 ((S.p1.Minus S.p0).Unit)) (v.Inverse.Unit) p
      c.center S.p0 t]
    rw [hEw, hNw]
    ring
  have hroot1 := (hconv d).symm.trans hroot0
  have hfirst1 : ∀ t : ℝ, t < d → c.radius * c.radius <
      ((S.p1.Minus S.p0).Unit.Dot (c.center.Minus S.p0) +
          (S.p1.Minus S.p0).Unit.Dot v.Unit * t -
          (S.p1.Minus S.p0).Unit.Dot (p.Minus S.p0)) *
        ((S.p1.Minus S.p0).Unit.Dot (c.center.Minus S.p0) +
          (S.p1.Minus S.p0).Unit.Dot v.Unit * t -
          (S.p1.Minus S.p0).Unit.Dot (p.Minus S.p0)) +
      ((rotate90 ((S.p1.Minus S.p0).Unit)).Dot (c.center.Minus S.p0) +
          (rotate90 ((S.p1.Minus S.p0).Unit)).Dot v.Unit * t -
          (rotate90 ((S.p1.Minus S.p0).Unit)).Dot (p.Minus S.p0)) *
        ((rotate90 ((S.p1.Minus S.p0).Unit)).Dot (c.center.Minus S.p0) +
          (rotate90 ((S.p1.Minus S.p0).Unit)).Dot v.Unit * t -
          (rotate90 ((S.p1.Minus S.p0).Unit)).Dot (p.Minus S.p0)) := by
    intro t ht
    rw [← hconv t]
    exact hfirst0 t ht
  -- nearest-point clamp facts
  have hcl : (((S.p1.Minus S.p0).Unit.Dot (ph.Minus S.p0) < 0 ∧
        (S.p1.Minus S.p0).Unit.Dot (p.Minus S.p0) = 0) ∨
      ((S.p1.Minus S.p0).Magnitude < (S.p1.Minus S.p0).Unit.Dot (ph.Minus S.p0) ∧
        (S.p1.Minus S.p0).Unit.Dot (p.Minus S.p0) = (S.p1.Minus S.p0).Magnitude) ∨
      (S.p1.Minus S.p0).Unit.Dot (p.Minus S.p0) =
        (S.p1.Minus S.p0).Unit.Dot (ph.Minus S.p0)) ∧
      (rotate90 ((S.p1.Minus S.p0).Unit)).Dot (p.Minus S.p0) = 0 := by
    simp only [Segment.NearestPoint] at hpeq
    split at hpeq
    · next hlt =>
      refine ⟨Or.inl ⟨hlt, ?_⟩, ?_⟩ <;> rw [hpeq] <;> exact dot_sub_self _ _
    · next hge =>
      split at hpeq
      · next hgt =>
        refine ⟨Or.inr (Or.inl ⟨hgt, ?_⟩), ?_⟩
        · rw [hpeq]
          exact unit_dot_base hV
        · rw [hpeq]
          exact rot_unit_dot_base (S.p1.Minus S.p0)
      · next hle =>
        constructor
        · right
          right
          rw [hpeq]
          rw [frame_affine ((S.p1.Minus S.p0).Unit) ((S.p1.Minus S.p0).Unit)
            S.p0 S.p0 S.p0 ((S.p1.Minus S.p0).Unit.Dot (ph.Minus S.p0))]
          rw [dot_sub_self, dot_self_eq_squaredMagnitude, he]
          ring
        · rw [hpeq]
          rw [frame_affine (rotate90 ((S.p1.Minus S.p0).Unit))
            ((S.p1.Minus S.p0).Unit) S.p0 S.p0 S.p0
            ((S.p1.Minus S.p0).Unit.Dot (ph.Minus S.p0))]
          rw [dot_sub_self, rot90_dot]
          ring
  obtain ⟨hclamp, hpY⟩ := hcl
  rw [hpY] at hroot1
  simp only [hpY, sub_zero] at hroot1 hfirst1
  -- the circlePlaneHit branch, in frame coordinates
  have hbrD : ((rotate90 ((S.p1.Minus S.p0).Unit)).Dot (c.center.Minus S.p0) ≤
        c.radius ∧
      (S.p1.Minus S.p0).Unit.Dot (ph.Minus S.p0) =
        (S.p1.Minus S.p0).Unit.Dot (c.center.Minus S.p0)) ∨
      (c.radius < (rotate90 ((S.p1.Minus S.p0).Unit)).Dot (c.center.Minus S.p0) ∧
        (rotate90 ((S.p1.Minus S.p0).Unit)).Dot v.Unit < 0 ∧
        ∃ e : ℝ, 0 ≤ e ∧
          (rotate90 ((S.p1.Minus S.p0).Unit)).Dot v.Unit * e =
            c.radius -
              (rotate90 ((S.p1.Minus S.p0).Unit)).Dot (c.center.Minus S.p0) ∧
          (S.p1.Minus S.p0).Unit.Dot (ph.Minus S.p0) =
            (S.p1.Minus S.p0).Unit.Dot (c.center.Minus S.p0) +
              (S.p1.Minus S.p0).Unit.Dot v.Unit * e) := by
    rcases hbr0 with ⟨hayR, hphval⟩ | ⟨hayR, d2, hd2, hue, hphval⟩
    · left
      refine ⟨hayR, ?_⟩
      rw [hphval]
      rw [frame_affine ((S.p1.Minus S.p0).Unit)
        ((rotate90 ((S.p1.Minus S.p0).Unit)).Inverse) c.center S.p0 S.p0
        ((rotate90 ((S.p1.Minus S.p0).Unit)).Dot (c.center.Minus S.p0))]
      rw [dot_sub_self, dot_inverse, dot_rot90]
      ring
    · right
      rw [dot_comm v.Unit (rotate90 ((S.p1.Minus S.p0).Unit))] at hue
      have huy : (rotate90 ((S.p1.Minus S.p0).Unit)).Dot v.Unit < 0 := by
        rcases lt_or_le ((rotate90 ((S.p1.Minus S.p0).Unit)).Dot v.Unit) 0 with h | h
        · exact h
        · exfalso
          nlinarith [mul_nonneg h hd2, hue, hayR]
      refine ⟨hayR, huy, d2, hd2, hue, ?_⟩
      rw [hphval]
      rw [frame_affine ((S.p1.Minus S.p0).Unit) v.Unit
        (c.center.Plus
          (((rotate90 ((S.p1.Minus S.p0).Unit)).Inverse).ScaledBy c.radius))
        S.p0 S.p0 d2]
      rw [dot_sub_self]
      rw [frame_affine ((S.p1.Minus S.p0).Unit)
        ((rotate90 ((S.p1.Minus S.p0).Unit)).Inverse) c.center S.p0 S.p0
        c.radius]
      rw [dot_sub_self, dot_inverse, dot_rot90]
      ring
  -- segment coordinates of q
  have hqX : (S.p1.Minus S.p0).Unit.Dot (q.Minus S.p0) =
      (S.p1.Minus S.p0).Magnitude * tq := by
    rw [hqe]
    rw [frame_affine ((S.p1.Minus S.p0).Unit) (S.p1.Minus S.p0) S.p0 S.p0 S.p0 tq]
    rw [dot_sub_self, unit_dot_base hV]
    ring
  have hqY : (rotate90 ((S.p1.Minus S.p0).Unit)).Dot (q.Minus S.p0) = 0 := by
    rw [hqe]
    rw [frame_affine (rotate90 ((S.p1.Minus S.p0).Unit)) (S.p1.Minus S.p0)
      S.p0 S.p0 S.p0 tq]
    rw [dot_sub_self, rot_unit_dot_base]
    ring
  -- assemble
  have hgoal := core_dispatch
    ((S.p1.Minus S.p0).Unit.Dot (c.center.Minus S.p0))
    ((rotate90 ((S.p1.Minus S.p0).Unit)).Dot (c.center.Minus S.p0))
    ((S.p1.Minus S.p0).Unit.Dot v.Unit)
    ((rotate90 ((S.p1.Minus S.p0).Unit)).Dot v.Unit)
    ((S.p1.Minus S.p0).Magnitude)
    ((S.p1.Minus S.p0).Unit.Dot (ph.Minus S.p0))
    ((S.p1.Minus S.p0).Unit.Dot (p.Minus S.p0))
    d c.radius ((S.p1.Minus S.p0).Magnitude * tq)
    hR hay0 hd0
    (mul_nonneg (Vec.magnitude_nonneg _) htq0)
    (by nlinarith [Vec.magnitude_nonneg (S.p1.Minus S.p0), htq1, htq0])
    hbrD hclamp hroot1 hfirst1
  rw [frame_sqdist ((S.p1.Minus S.p0).Unit) (c.center.Plus (v.Unit.ScaledBy d)) q he]
  rw [frame_affine ((S.p1.Minus S.p0).Unit) v.Unit c.center q S.p0 d]
  rw [frame_affine (rotate90 ((S.p1.Minus S.p0).Unit)) v.Unit c.center q S.p0 d]
  rw [hqX, hqY]
  linarith [hgoal]

/-- Pulling the center back by T along the unit direction (ux, uy) costs at
most T of distance: if (axx, ayy) is the separation vector of the unpulled
center, of length at least R, the pulled-back separation has length at least
R - T (squared form, by Cauchy-Schwarz). -/
lemma pullback_dist (axx ayy ux uy R T : ℝ)
    (hu : ux * ux + uy * uy = 1)
    (hT : 0 ≤ T) (hRT : 0 < R - T)
    (h : R * R ≤ axx * axx + ayy * ayy) :
    (R - T) * (R - T) ≤
      (axx - ux * T) * (axx - ux * T) + (ayy - uy * T) * (ayy - uy * T) := by
  have hiden : (ux * axx + uy * ayy) * (ux * axx + uy * ayy) +
      (ux * ayy - uy * axx) * (ux * ayy - uy * axx) =
      axx * axx + ayy * ayy := by
    linear_combination (axx * axx + ayy * ayy) * hu
  have hcs : (ux * axx + uy * ayy) * (ux * axx + uy * ayy) ≤
      axx * axx + ayy * ayy := by
    linarith [sq_nonneg (ux * ayy - uy * axx), hiden]
  have huT : (ux * T) * (ux * T) + (uy * T) * (uy * T) = T * T := by
    linear_combination (T * T) * hu
  rcases le_or_lt (ux * axx + uy * ayy) R with hca | hca
  · linarith [h, mul_nonneg hT (sub_nonneg.mpr hca), huT]
  · linarith [hcs, huT, h,
      mul_pos (sub_pos.mpr hca)
        (show 0 < ux * axx + uy * ayy + R - 2 * T by linarith)]

/-- C1: for every circle with positive radius, non-near-zero velocity and
obstacle list, when a resolution iteration of MoveCircle (one moveCircle1
call) reports a hit, the center advanced by the returned distance is at
distance at least radius minus the Threshold epsilon from every point of
every obstacle segment that produced the selected collision: the circle is
never embedded beyond that tolerance. -/
theorem c1_no_embedding (c : Circle) (v : Vec) (segs : List Segment) (mv : Move)
    (hR : 0 < c.radius)
    (hv : ¬ v.NearZero)
    (hmv : moveCircle1 c v segs = some mv)
    (hhit : mv.hit = true)
    (S : Segment) (hS : S ∈ segs)
    (hShit : circleSegmentHit c v S = some (mv.distance + Threshold, mv.hitPoint))
    (q : Pt) (hq : S.Contains q) :
    c.radius - Threshold ≤
      (c.center.Plus (v.Unit.ScaledBy mv.distance)).Distance q := by
  have hv2 : v.SquaredMagnitude ≠ 0 := Vec.sqmag_ne_of_not_nearZero hv
  have hover := segment_hit_no_overlap hR hv2 hShit hq
  rcases le_or_lt (c.radius - Threshold) 0 with h0 | h0
  · exact le_trans h0 (Real.sqrt_nonneg _)
  · have hu1 : v.Unit.SquaredMagnitude = 1 := Vec.unit_squaredMagnitude hv2
    simp only [Vec.SquaredMagnitude] at hu1
    simp only [Pt.SquaredDistance, Pt.Plus, Vec.ScaledBy] at hover
    have hineq := pullback_dist
      (c.center.x + v.Unit.x * (mv.distance + Threshold) - q.x)
      (c.center.y + v.Unit.y * (mv.distance + Threshold) - q.y)
      v.Unit.x v.Unit.y c.radius Threshold hu1 (le_of_lt threshold_pos) h0 hover
    have hineq2 : (c.radius - Threshold) * (c.radius - Threshold) ≤
        (c.center.Plus (v.Unit.ScaledBy mv.distance)).SquaredDistance q := by
      simp only [Pt.SquaredDistance, Pt.Plus, Vec.ScaledBy]
      linarith [hineq]
    calc c.radius - Threshold
        = Real.sqrt ((c.radius - Threshold) * (c.radius - Threshold)) :=
          (sqrtEval (le_of_lt h0) rfl).symm
      _ ≤ (c.center.Plus (v.Unit.ScaledBy mv.distance)).Distance q :=
          Real.sqrt_le_sqrt hineq2

/-- C1 witness: the head-on wall scenario.  After the resolved collision the
center sits at (4 - Threshold, 0), and its distance to the contact point
(5, 0) of the wall is at least 1 - Threshold. -/
theorem c1_witness :
    circleO.radius - Threshold ≤
      (circleO.center.Plus ((Vec.mk 10 0).Unit.ScaledBy
        (4 - Threshold))).Distance ⟨5, 0⟩ := by
  exact c1_no_embedding circleO ⟨10, 0⟩ [wallSeg]
    ⟨4 - Threshold, ⟨0, 0⟩, true, ⟨5, 0⟩⟩
    (by norm_num [circleO])
    (Vec.not_nearZero_of_big_x (Or.inl (by norm_num [Threshold])))
    c2_move1 rfl wallSeg (by simp)
    (by
      show circleSegmentHit circleO ⟨10, 0⟩ wallSeg =
        some ((4 - Threshold) + Threshold, ⟨5, 0⟩)
      rw [show (4 - Threshold) + Threshold = (4 : ℝ) by ring]
      exact c2_segHit)
    ⟨5, 0⟩
    ⟨1 / 2, by norm_num, by norm_num,
      by norm_num [wallSeg, Pt.Plus, Pt.Minus, Vec.ScaledBy]⟩

end Quart
